import Mathlib

/-!
Verification of the rclone Digiposte backend (tree cache and path resolution layer).

Shallow embedding of `backend/digiposte` (files `digiposte.go`, `tree.go` and the
backend operations file).  Go `int64` counters are modelled as `Int`, time stamps
as `Int`, remote identifiers and names as `String`.  The remote store client is
modelled as a record of deterministic response functions; every remote call an
operation issues is recorded in an event trace, together with the log lines the
code emits.  The in-place pointer mutations of the Go code become functional
updates applied at the node that `GetFolder` resolves.
-/

namespace Digiposte

/-! ## Path codec (`remote2Local` / `local2Remote`)

`SlashReplacement = "_"`.  The Go code uses `strings.ReplaceAll` with the
single-character patterns `"/"` and `"_"`; for single-character patterns and
replacements `ReplaceAll` is exactly a character-wise map. -/

def slashReplacement : Char := '_'

def remote2Local (remote : String) : String :=
  String.mk (remote.toList.map fun c => if c = '/' then slashReplacement else c)

def local2Remote (loc : String) : String :=
  String.mk (loc.toList.map fun c => if c = slashReplacement then '/' else c)

/-- The per-segment transformation `local2Remote(remote2Local(p))` applied by
`GetFolder` to every path segment before comparing it with folder names. -/
def decodeSeg (p : String) : String :=
  local2Remote (remote2Local p)

/-! ## Go standard library `path` package (`Clean`, `Split`, `Dir`, `Base`, `Join`)

Functional transliteration of `path.Clean` (the Plan 9 cleaning algorithm,
expressed as the usual segment-stack formulation), and of `Dir`, `Base`
and the two-argument `Join` used by the backend. -/

/-- `strings.Split(s, "/")` on the character list (empty input gives the one
empty segment, as in Go). -/
def splitSlashChars : List Char → List (List Char)
  | [] => [[]]
  | c :: cs =>
    if c = '/' then [] :: splitSlashChars cs
    else
      match splitSlashChars cs with
      | [] => [[c]]
      | seg :: rest => (c :: seg) :: rest

/-- `strings.Split(s, "/")`. -/
def splitSlash (s : String) : List String :=
  (splitSlashChars s.toList).map String.mk

/-- Segment processing of `path.Clean`: skip empty and `.` segments, let `..`
pop a non-`..` stack entry (or be dropped at the root of a rooted path), push
everything else.  The accumulator holds the output segments in reverse order. -/
def cleanSegs (rooted : Bool) : List String → List String → List String
  | acc, [] => acc.reverse
  | acc, s :: rest =>
    if s = "" || s = "." then cleanSegs rooted acc rest
    else if s = ".." then
      match acc with
      | a :: as' => if a = ".." then cleanSegs rooted (s :: a :: as') rest
                    else cleanSegs rooted as' rest
      | [] => if rooted then cleanSegs rooted [] rest else cleanSegs rooted [s] rest
    else cleanSegs rooted (s :: acc) rest

/-- String concatenation on the character lists (the same function as `++` on
strings, in a form the kernel evaluates). -/
def strCat (a b : String) : String := String.mk (a.toList ++ b.toList)

/-- `strings.Join(out, "/")` on character lists. -/
def joinSlash : List String → List Char
  | [] => []
  | [s] => s.toList
  | s :: rest => s.toList ++ '/' :: joinSlash rest

def goPathClean (p : String) : String :=
  if p = "" then "."
  else
    let rooted := match p.toList with
      | '/' :: _ => true
      | _ => false
    let out := cleanSegs rooted [] (splitSlash p)
    let joined := String.mk (joinSlash out)
    if rooted then String.mk ('/' :: joinSlash out)
    else if joined = "" then "." else joined

/-- `path.Base`: empty path gives `"."`; trailing slashes are removed; the part
after the final slash is returned, `"/"` if that is empty. -/
def goPathBase (p : String) : String :=
  if p = "" then "."
  else
    let cs := (p.toList.reverse.dropWhile fun c => c = '/')
    if cs = [] then "/"
    else String.mk ((cs.takeWhile fun c => c ≠ '/').reverse)

/-- `path.Dir`: everything up to (and including) the final slash, cleaned. -/
def goPathDir (p : String) : String :=
  goPathClean (String.mk ((p.toList.reverse.dropWhile fun c => c ≠ '/').reverse))

/-- Two-argument `path.Join`: joining starts at the first non-empty element and
the result is cleaned; all-empty input yields `""`. -/
def goPathJoin (a b : String) : String :=
  if a = "" then (if b = "" then "" else goPathClean b)
  else goPathClean (strCat a (strCat "/" b))

/-- `strings.Trim(s, "/")`: remove leading and trailing `'/'` characters. -/
def trimSlashes (s : String) : String :=
  String.mk (((s.toList.dropWhile fun c => c = '/').reverse.dropWhile
    fun c => c = '/').reverse)

/-! ## Data model: cached folder tree (`digiposte.Folder`), documents, profile -/

/-- A cached folder node: internal id, name, created/updated time stamps,
`DocumentCount` (the eagerly maintained `int64` counter) and the owned list of
child folders.  Mirrors `digiposte.Folder` as used by the backend. -/
inductive DFolder : Type where
  | mk : String → String → Int → Int → Int → List DFolder → DFolder

def DFolder.internalID : DFolder → String
  | .mk i _ _ _ _ _ => i

def DFolder.name : DFolder → String
  | .mk _ n _ _ _ _ => n

def DFolder.createdAt : DFolder → Int
  | .mk _ _ ca _ _ _ => ca

def DFolder.updatedAt : DFolder → Int
  | .mk _ _ _ ua _ _ => ua

def DFolder.documentCount : DFolder → Int
  | .mk _ _ _ _ c _ => c

def DFolder.folders : DFolder → List DFolder
  | .mk _ _ _ _ _ fs => fs

/-- Replace the children list of a node (models assigning `folder.Folders`). -/
def DFolder.withFolders : DFolder → List DFolder → DFolder
  | .mk i n ca ua c _, fs => .mk i n ca ua c fs

/-- Add `δ` to the cached document count (models `folder.DocumentCount += δ`). -/
def DFolder.bumpCount (δ : Int) : DFolder → DFolder
  | .mk i n ca ua c fs => .mk i n ca ua (c + δ) fs

/-- A remote document as returned by the client (id, name, size in bytes). -/
structure RDocument where
  internalID : String
  name : String
  size : Int
deriving DecidableEq, Repr

/-- The slice of the account profile the backend reads. -/
structure Profile where
  subscriptionDate : Int
deriving DecidableEq, Repr

mutual

/-- `documentsTotalCount`: a folder's own cached count plus, recursively, that
of all its child folders (`tree.go`). -/
def documentsTotalCount : DFolder → Int
  | .mk _ _ _ _ c fs => c + documentsTotalCountList fs

/-- Sum of `documentsTotalCount` over a children list. -/
def documentsTotalCountList : List DFolder → Int
  | [] => 0
  | f :: fs => documentsTotalCount f + documentsTotalCountList fs

end

/-! ## Errors

The various `fmt.Errorf` wrappings and `fs.Error*` sentinels of the backend. -/

/-- A remote (client) error: opaque message. -/
abbrev RErr := String

inductive Err : Type where
  /-- `fs.ErrorDirNotFound` -/
  | dirNotFound
  /-- `fs.ErrorObjectNotFound` -/
  | objectNotFound
  /-- `fs.ErrorCantMove` -/
  | cantMove
  /-- `fs.ErrorCantCopy` -/
  | cantCopy
  /-- `errors.ErrUnsupported` -/
  | unsupported
  /-- `fmt.Errorf("%q is not empty", dir)` -/
  | notEmpty (dir : String)
  /-- `fmt.Errorf("%q not found", dir)` -/
  | notFound (dir : String)
  /-- `fmt.Errorf("found %d documents with the same name", n)` -/
  | tooManyDocuments (n : Nat)
  /-- `fmt.Errorf("copy documents ...: expected 1 document, got %d: %w", n, cantCopy)` -/
  | expectedOneDocument (n : Nat)
  /-- `fmt.Errorf("unsupported mandatory option %d: %v", i, option)` -/
  | mandatoryOption (i : Nat)
  /-- a wrapped remote-call error: `fmt.Errorf("<op>: %w", err)` -/
  | remoteErr (op : String) (e : RErr)
  /-- an error wrapped with operation context: `fmt.Errorf("<op> ...: %w", err)` -/
  | wrap (op : String) (e : Err)
  /-- `fmt.Errorf("get %q: %v: %w", path, err, sentinel)`: only the sentinel is
  wrapped, the inner error is formatted away. -/
  | wrapPath (op path : String) (e : Err)
deriving DecidableEq, Repr

/-! ## Path resolver (`Fs.GetFolder`, `tree.go`)

The Go loop scans `folder.Folders` in order and descends into the first child
whose `Name` equals the decoded/re-encoded segment, `break`ing on the match. -/

/-- Descend from `f` through the given path segments: at each segment the
children are scanned linearly (`List.find?` is that scan) and the walk
descends into the first child whose name equals the decoded segment;
`fs.ErrorDirNotFound` when no child matches. -/
def resolveSegs : DFolder → List String → Except Err DFolder
  | f, [] => .ok f
  | f, p :: ps =>
    match f.folders.find? (fun c => c.name = decodeSeg p) with
    | some c => resolveSegs c ps
    | none => .error .dirNotFound

/-- One scanning step of the resolver over an explicit children list. -/
def resolveChildren (nm : String) (l : List DFolder) (ps : List String) :
    Except Err DFolder :=
  match l.find? (fun c => c.name = nm) with
  | some c => resolveSegs c ps
  | none => .error .dirNotFound

theorem resolveSegs_cons (f : DFolder) (p : String) (ps : List String) :
    resolveSegs f (p :: ps) = resolveChildren (decodeSeg p) f.folders ps := rfl

/-- `Fs.GetFolder`: trim slashes, return the root for the empty path, otherwise
split on `/` and resolve segment by segment. -/
def getFolder (root : DFolder) (remote : String) : Except Err DFolder :=
  let r := trimSlashes remote
  if r = "" then .ok root
  else resolveSegs root (splitSlash r)

/-- The segment list `GetFolder` walks for a given path string. -/
def pathSegs (remote : String) : List String :=
  let r := trimSlashes remote
  if r = "" then [] else splitSlash r

/-- The decoded segment list: resolution (and hence node identity) depends on
the path only through this list. -/
def decodeSegs (remote : String) : List String :=
  (pathSegs remote).map decodeSeg

/-- Replace the first folder named `nm` in a children list (the list cell the
scanning loop stopped at) by the updated node. -/
def replaceFirst (nm : String) (c' : DFolder) : List DFolder → List DFolder
  | [] => []
  | g :: gs => if g.name = nm then c' :: gs else g :: replaceFirst nm c' gs

/-- Apply `upd` to the node reached by descending through `ps` — the first
child matching each decoded segment, exactly as `GetFolder` walks — and
rebuild the tree along the walk (the functional counterpart of mutating,
through the pointer `GetFolder` returned, the node's fields).  `none` exactly
when resolution fails. -/
def updateSegs (upd : DFolder → DFolder) : DFolder → List String → Option DFolder
  | f, [] => some (upd f)
  | f, p :: ps =>
    match f.folders.find? (fun c => c.name = decodeSeg p) with
    | none => none
    | some child =>
      match updateSegs upd child ps with
      | none => none
      | some child' => some (f.withFolders (replaceFirst (decodeSeg p) child' f.folders))

/-- Best-effort cache patch at a path (the Go pattern
`if node, err := f.GetFolder(ctx, path); err == nil { mutate node }`). -/
def patchAt (upd : DFolder → DFolder) (t : DFolder) (path : String) : Option DFolder :=
  updateSegs upd t (pathSegs path)

/-! ## Remote store client and event trace

Every remote call the backend issues is recorded as an event, as are the
`fs.Infof`/`fs.Logf` lines the code emits on its best-effort paths. -/

inductive Event : Type where
  | callListFolders
  | callListDocuments
  | callGetProfile
  | callSearchDocuments (parentID : String)
  | callCreateFolder (parentID name : String)
  | callRenameFolder (id name : String)
  | callCreateDocument (parentID name : String)
  | callRenameDocument (id name : String)
  | callMove (destID : String) (docIDs : List String) (folderIDs : List String)
  | callCopyDocuments (ids : List String)
  | callDelete (docIDs : List String) (folderIDs : List String)
  /-- `fs.Infof(dir, "Found multiple folders with the same name, deleting all")` -/
  | logDuplicateWarning (dir : String)
  /-- `fs.Logf(..., "Failed to update cache: %v", err)` -/
  | logCacheSyncFailure (path : String)
  /-- `fs.Infof(src, "Found folder with the same name, ignoring it")` -/
  | logSameNameFolder (remote : String)
deriving DecidableEq, Repr

/-- The remote store client, modelled as deterministic response functions
(`none` from a `... → Option RErr` field means the call succeeded). -/
structure Client where
  listFoldersRes : Except RErr (List DFolder)
  listDocumentsRes : Except RErr (List RDocument)
  getProfileRes : Except RErr Profile
  searchDocumentsRes : String → Except RErr (List RDocument)
  createFolderRes : String → String → Except RErr DFolder
  renameFolderRes : String → String → Except RErr DFolder
  /-- Go `CreateDocument` returns a document pointer and an error, and the
  backend inspects both independently. -/
  createDocumentRes : String → String → Option RDocument × Option RErr
  renameDocumentRes : String → String → Except RErr RDocument
  moveRes : String → List String → List String → Option RErr
  copyDocumentsRes : List String → Except RErr (List RDocument)
  deleteRes : List String → List String → Option RErr

/-- A `*Document` entry adapter as returned to the caller: the remote document
plus its denormalized remote path (`tree.go`, `Fs.newDocument`). -/
structure DocObject where
  doc : RDocument
  remote : String
deriving DecidableEq, Repr

/-- `Fs.newDocument`: wrap a remote document, path `Join(parentDir, remote2Local(name))`. -/
def newDocument (parentDir : String) (d : RDocument) : DocObject :=
  ⟨d, goPathJoin parentDir (remote2Local d.name)⟩

/-- Result of a backend operation: the Go return value, the trace of remote
calls and log lines, and the state of `f.tree` afterwards. -/
structure OpResult (α : Type) where
  res : Except Err α
  events : List Event
  tree : Option DFolder

/-- Result of `PutStream`, which can return an object *and* an error. -/
structure PutResult where
  obj : Option DocObject
  err : Option Err
  events : List Event
  tree : Option DFolder

/-- An `fs.Object` argument as the backend inspects it: its remote path,
whether it type-asserts to `fs.Directory`, and its `fs.IDer` id if any. -/
structure SrcObject where
  remote : String
  isDir : Bool
  id? : Option String
deriving DecidableEq, Repr

/-- An `fs.Directory` argument (`DirMove` source, `MergeDirs` entries). -/
structure DirEntryArg where
  remote : String
  id : String
deriving DecidableEq, Repr

/-! ## `Fs.buildTree` (`tree.go`) -/

structure BuildOut where
  res : Except Err Unit
  events : List Event
  tree : Option DFolder

/-- `Fs.buildTree`: no-op when the tree exists; otherwise list top-level
folders, list top-level documents, fetch the profile, and assemble the root
(empty id and name, the subscription date as both time stamps, the listed
folders as children, the number of top-level documents as the count). -/
def buildTree (c : Client) (tree? : Option DFolder) : BuildOut :=
  match tree? with
  | some t => ⟨.ok (), [], some t⟩
  | none =>
    match c.listFoldersRes with
    | .error e => ⟨.error (.remoteErr "list folders" e), [.callListFolders], none⟩
    | .ok folders =>
      match c.listDocumentsRes with
      | .error e =>
        ⟨.error (.remoteErr "list documents" e),
         [.callListFolders, .callListDocuments], none⟩
      | .ok documents =>
        match c.getProfileRes with
        | .error e =>
          ⟨.error (.remoteErr "get profile" e),
           [.callListFolders, .callListDocuments, .callGetProfile], none⟩
        | .ok profile =>
          ⟨.ok (), [.callListFolders, .callListDocuments, .callGetProfile],
           some (.mk "" "" profile.subscriptionDate profile.subscriptionDate
             (Int.ofNat documents.length) folders)⟩

/-! ## `Fs.Move` -/

/-- `Fs.Move`: resolve the destination parent, reject directory sources and
sources without an id, issue the remote move only when the parent paths (as
`path.Dir` strings) differ — patching the source and destination parents'
counts best-effort afterwards — then issue the rename only when the basenames
differ, returning the renamed entry; `(nil, nil)` otherwise. -/
def move (c : Client) (tree? : Option DFolder) (src : SrcObject) (dst : String) :
    OpResult (Option DocObject) :=
  match buildTree c tree? with
  | ⟨.error e, evs, t?⟩ => ⟨.error (.wrap "build tree" e), evs, t?⟩
  | ⟨.ok _, evs0, t?⟩ =>
    match t? with
    | none => ⟨.error .dirNotFound, evs0, none⟩
    | some t =>
    let srcRemote := src.remote
    let srcBaseName := goPathBase srcRemote
    let srcParent := goPathDir srcRemote
    let dstBaseName := goPathBase dst
    let dstParent := goPathDir dst
    match getFolder t dstParent with
    | .error _ => ⟨.error (.wrapPath "get" dstParent .cantMove), evs0, some t⟩
    | .ok dstParentFolder =>
      if src.isDir then
        ⟨.error (.wrap "unsupported object" .cantMove), evs0, some t⟩
      else
        match src.id? with
        | none => ⟨.error (.wrap "unsupported object" .cantMove), evs0, some t⟩
        | some documentID =>
          let step :=
            if goPathDir srcRemote ≠ dstParent then
              let callEv := Event.callMove dstParentFolder.internalID [documentID] []
              match c.moveRes dstParentFolder.internalID [documentID] [] with
              | some e => (Except.error (Err.remoteErr "move document" e), [callEv], t)
              | none =>
                let (t1, ev1) :=
                  match patchAt (DFolder.bumpCount (-1)) t srcParent with
                  | some t' => (t', ([] : List Event))
                  | none => (t, [Event.logCacheSyncFailure srcParent])
                let (t2, ev2) :=
                  match patchAt (DFolder.bumpCount 1) t1 dstParent with
                  | some t' => (t', ([] : List Event))
                  | none => (t1, [Event.logCacheSyncFailure dstParent])
                (Except.ok (), [callEv] ++ ev1 ++ ev2, t2)
            else (Except.ok (), [], t)
          match step with
          | (.error e, evs1, t') => ⟨.error e, evs0 ++ evs1, some t'⟩
          | (.ok _, evs1, t') =>
            if srcBaseName ≠ dstBaseName then
              match c.renameDocumentRes documentID dstBaseName with
              | .error e =>
                ⟨.error (.remoteErr "rename document" e),
                 evs0 ++ evs1 ++ [.callRenameDocument documentID dstBaseName], some t'⟩
              | .ok document =>
                ⟨.ok (some (newDocument dstParent document)),
                 evs0 ++ evs1 ++ [.callRenameDocument documentID dstBaseName], some t'⟩
            else ⟨.ok none, evs0 ++ evs1, some t'⟩

/-! ## `Fs.Copy` -/

/-- `Fs.Copy`: copy the source document, move the copy when the parent paths
differ (re-incrementing the source parent's count best-effort if that move
fails, since the copy landed there), increment the destination parent's count,
then rename only when the basenames differ; `(nil, nil)` otherwise. -/
def copy (c : Client) (tree? : Option DFolder) (src : SrcObject) (remote : String) :
    OpResult (Option DocObject) :=
  match buildTree c tree? with
  | ⟨.error e, evs, t?⟩ => ⟨.error (.wrap "build tree" e), evs, t?⟩
  | ⟨.ok _, evs0, t?⟩ =>
    match t? with
    | none => ⟨.error .dirNotFound, evs0, none⟩
    | some t =>
    let srcRemote := src.remote
    let srcBaseName := goPathBase srcRemote
    let srcParent := goPathDir srcRemote
    let remoteBaseName := goPathBase remote
    let remoteParent := goPathDir remote
    match getFolder t remoteParent with
    | .error _ => ⟨.error (.wrapPath "get" remoteParent .cantMove), evs0, some t⟩
    | .ok remoteParentFolder =>
      if src.isDir then
        ⟨.error (.wrap "unsupported object" .cantMove), evs0, some t⟩
      else
        match src.id? with
        | none => ⟨.error (.wrap "unsupported object" .cantMove), evs0, some t⟩
        | some srcID =>
          match c.copyDocumentsRes [srcID] with
          | .error e =>
            ⟨.error (.remoteErr "copy documents" e),
             evs0 ++ [.callCopyDocuments [srcID]], some t⟩
          | .ok docs =>
            match docs with
            | [document0] =>
              let documentID := document0.internalID
              let step :=
                if goPathDir srcRemote ≠ remoteParent then
                  let callEv := Event.callMove remoteParentFolder.internalID [documentID] []
                  match c.moveRes remoteParentFolder.internalID [documentID] [] with
                  | some e =>
                    let (t1, ev1) :=
                      match patchAt (DFolder.bumpCount 1) t srcParent with
                      | some t' => (t', ([] : List Event))
                      | none => (t, [Event.logCacheSyncFailure srcParent])
                    (Except.error (Err.remoteErr "move documents" e), [callEv] ++ ev1, t1)
                  | none => (Except.ok (), [callEv], t)
                else (Except.ok (), [], t)
              match step with
              | (.error e, evs1, t') =>
                ⟨.error e, evs0 ++ [.callCopyDocuments [srcID]] ++ evs1, some t'⟩
              | (.ok _, evs1, t') =>
                let t2 := (patchAt (DFolder.bumpCount 1) t' remoteParent).getD t'
                if srcBaseName ≠ remoteBaseName then
                  match c.renameDocumentRes documentID remoteBaseName with
                  | .error e =>
                    ⟨.error (.remoteErr "rename document" e),
                     evs0 ++ [.callCopyDocuments [srcID]] ++ evs1 ++
                       [.callRenameDocument documentID remoteBaseName], some t2⟩
                  | .ok document =>
                    ⟨.ok (some (newDocument remoteParent document)),
                     evs0 ++ [.callCopyDocuments [srcID]] ++ evs1 ++
                       [.callRenameDocument documentID remoteBaseName], some t2⟩
                else ⟨.ok none, evs0 ++ [.callCopyDocuments [srcID]] ++ evs1, some t2⟩
            | _ =>
              ⟨.error (.wrap "copy documents" (.expectedOneDocument docs.length)),
               evs0 ++ [.callCopyDocuments [srcID]], some t⟩

/-! ## `Fs.DirMove` -/

/-- `Fs.DirMove`: resolve the destination parent, require a directory source,
issue the remote move only when the parent paths differ — then best-effort
remove the moved folder id from the source parent's cached children and from
the destination parent's cached children — and rename only when the basenames
differ. -/
def dirMove (c : Client) (tree? : Option DFolder) (src : DirEntryArg)
    (srcIsDir : Bool) (srcRemote dstRemote : String) : OpResult Unit :=
  match buildTree c tree? with
  | ⟨.error e, evs, t?⟩ => ⟨.error (.wrap "build tree" e), evs, t?⟩
  | ⟨.ok _, evs0, t?⟩ =>
    match t? with
    | none => ⟨.error .dirNotFound, evs0, none⟩
    | some t =>
    let srcBaseName := goPathBase srcRemote
    let srcParent := goPathDir srcRemote
    let dstBaseName := goPathBase dstRemote
    let dstParent := goPathDir dstRemote
    match getFolder t dstParent with
    | .error _ => ⟨.error (.wrapPath "get" dstParent .cantMove), evs0, some t⟩
    | .ok dstParentFolder =>
      if ¬ srcIsDir then
        ⟨.error (.wrap "unsupported object" .cantMove), evs0, some t⟩
      else
        let folderID := src.id
        let step :=
          if goPathDir srcRemote ≠ dstParent then
            let callEv := Event.callMove dstParentFolder.internalID [] [folderID]
            match c.moveRes dstParentFolder.internalID [] [folderID] with
            | some e => (Except.error (Err.remoteErr "move document" e), [callEv], t)
            | none =>
              let dropChild := fun (f : DFolder) =>
                f.withFolders (f.folders.filter fun g => g.internalID ≠ folderID)
              let (t1, ev1) :=
                match patchAt dropChild t srcParent with
                | some t' => (t', ([] : List Event))
                | none => (t, [Event.logCacheSyncFailure srcParent])
              let (t2, ev2) :=
                match patchAt dropChild t1 dstParent with
                | some t' => (t', ([] : List Event))
                | none => (t1, [Event.logCacheSyncFailure dstParent])
              (Except.ok (), [callEv] ++ ev1 ++ ev2, t2)
          else (Except.ok (), [], t)
        match step with
        | (.error e, evs1, t') => ⟨.error e, evs0 ++ evs1, some t'⟩
        | (.ok _, evs1, t') =>
          if srcBaseName ≠ dstBaseName then
            match c.renameFolderRes folderID dstBaseName with
            | .error e =>
              ⟨.error (.remoteErr "rename document" e),
               evs0 ++ evs1 ++ [.callRenameFolder folderID dstBaseName], some t'⟩
            | .ok _ =>
              ⟨.ok (), evs0 ++ evs1 ++ [.callRenameFolder folderID dstBaseName], some t'⟩
          else ⟨.ok (), evs0 ++ evs1, some t'⟩

/-! ## `Fs.Mkdir` -/

/-- `Fs.Mkdir`: resolve the parent, create the folder remotely, append the new
folder node to the parent's cached children. -/
def mkdir (c : Client) (tree? : Option DFolder) (dir : String) : OpResult Unit :=
  match buildTree c tree? with
  | ⟨.error e, evs, t?⟩ => ⟨.error (.wrap "build tree" e), evs, t?⟩
  | ⟨.ok _, evs0, t?⟩ =>
    match t? with
    | none => ⟨.error .dirNotFound, evs0, none⟩
    | some t =>
    let parentPath := goPathDir dir
    let baseName := goPathBase dir
    match getFolder t parentPath with
    | .error e => ⟨.error (.wrap "get" e), evs0, some t⟩
    | .ok parent =>
      match c.createFolderRes parent.internalID baseName with
      | .error e =>
        ⟨.error (.remoteErr "create folder" e),
         evs0 ++ [.callCreateFolder parent.internalID baseName], some t⟩
      | .ok folder =>
        let t' := (patchAt (fun f => f.withFolders (f.folders ++ [folder]))
          t parentPath).getD t
        ⟨.ok (), evs0 ++ [.callCreateFolder parent.internalID baseName], some t'⟩

/-! ## `Fs.Rmdir` -/

/-- The `Rmdir` loop over the parent's children: non-matching folders are kept;
a matching folder is checked for emptiness (`documentsTotalCount > 0` fails
with the not-empty error), deleted remotely, and dropped from the kept list;
a second match logs the multiplicity warning first.  Returns the kept children
and whether a match was found, with the event trace. -/
def rmdirLoop (c : Client) (dir baseName : String) (found : Bool) :
    List DFolder → Except Err (List DFolder × Bool) × List Event
  | [] => (.ok ([], found), [])
  | folder :: rest =>
    if folder.name ≠ baseName then
      match rmdirLoop c dir baseName found rest with
      | (.ok (fs', found'), evs) => (.ok (folder :: fs', found'), evs)
      | (.error e, evs) => (.error e, evs)
    else
      let warnEvs := if found then [Event.logDuplicateWarning dir] else []
      if documentsTotalCount folder > 0 then
        (.error (.notEmpty dir), warnEvs)
      else
        let delEv := Event.callDelete [] [folder.internalID]
        match c.deleteRes [] [folder.internalID] with
        | some e => (.error (.remoteErr "delete" e), warnEvs ++ [delEv])
        | none =>
          match rmdirLoop c dir baseName true rest with
          | (.ok (fs', found'), evs) => (.ok (fs', found'), warnEvs ++ [delEv] ++ evs)
          | (.error e, evs) => (.error e, warnEvs ++ [delEv] ++ evs)

/-- `Fs.Rmdir`: resolve the parent, then delete every same-named child folder
that is empty (recursive count not positive), rebuild the parent's children
list, and fail with "not found" when no child matched. -/
def rmdir (c : Client) (tree? : Option DFolder) (dir : String) : OpResult Unit :=
  match buildTree c tree? with
  | ⟨.error e, evs, t?⟩ => ⟨.error (.wrap "build tree" e), evs, t?⟩
  | ⟨.ok _, evs0, t?⟩ =>
    match t? with
    | none => ⟨.error .dirNotFound, evs0, none⟩
    | some t =>
    let parentPath := goPathDir dir
    let baseName := goPathBase dir
    match getFolder t parentPath with
    | .error e => ⟨.error (.wrap "get" e), evs0, some t⟩
    | .ok parent =>
      match rmdirLoop c dir baseName false parent.folders with
      | (.error e, evs) => ⟨.error e, evs0 ++ evs, some t⟩
      | (.ok (folders', found), evs) =>
        let t' := (patchAt (fun f => f.withFolders folders') t parentPath).getD t
        if ¬ found then ⟨.error (.notFound dir), evs0 ++ evs, some t'⟩
        else ⟨.ok (), evs0 ++ evs, some t'⟩

/-! ## `Fs.Purge` -/

/-- The `Purge` loop: like the `Rmdir` loop but with no emptiness check. -/
def purgeLoop (c : Client) (dir baseName : String) (found : Bool) :
    List DFolder → Except Err (List DFolder × Bool) × List Event
  | [] => (.ok ([], found), [])
  | folder :: rest =>
    if folder.name ≠ baseName then
      match purgeLoop c dir baseName found rest with
      | (.ok (fs', found'), evs) => (.ok (folder :: fs', found'), evs)
      | (.error e, evs) => (.error e, evs)
    else
      let warnEvs := if found then [Event.logDuplicateWarning dir] else []
      let delEv := Event.callDelete [] [folder.internalID]
      match c.deleteRes [] [folder.internalID] with
      | some e => (.error (.remoteErr "delete" e), warnEvs ++ [delEv])
      | none =>
        match purgeLoop c dir baseName true rest with
        | (.ok (fs', found'), evs) => (.ok (fs', found'), warnEvs ++ [delEv] ++ evs)
        | (.error e, evs) => (.error e, warnEvs ++ [delEv] ++ evs)

/-- `Fs.Purge`: like `Rmdir` without the emptiness gate. -/
def purge (c : Client) (tree? : Option DFolder) (dir : String) : OpResult Unit :=
  match buildTree c tree? with
  | ⟨.error e, evs, t?⟩ => ⟨.error (.wrap "build tree" e), evs, t?⟩
  | ⟨.ok _, evs0, t?⟩ =>
    match t? with
    | none => ⟨.error .dirNotFound, evs0, none⟩
    | some t =>
    let parentPath := goPathDir dir
    let baseName := goPathBase dir
    match getFolder t parentPath with
    | .error e => ⟨.error (.wrap "get" e), evs0, some t⟩
    | .ok parent =>
      match purgeLoop c dir baseName false parent.folders with
      | (.error e, evs) => ⟨.error e, evs0 ++ evs, some t⟩
      | (.ok (folders', found), evs) =>
        let t' := (patchAt (fun f => f.withFolders folders') t parentPath).getD t
        if ¬ found then ⟨.error (.notFound dir), evs0 ++ evs, some t'⟩
        else ⟨.ok (), evs0 ++ evs, some t'⟩

/-! ## `Fs.MergeDirs` -/

/-- The collection loop of `MergeDirs`: for every source directory, resolve its
folder, record its id for deletion, collect its child folder ids and (via a
live search) its document ids. -/
def mergeCollect (c : Client) (t : DFolder) :
    List DirEntryArg →
    Except Err (List String × List String × List String) × List Event
  | [] => (.ok ([], [], []), [])
  | dir :: rest =>
    match getFolder t dir.remote with
    | .error e => (.error (.wrap "get" e), [])
    | .ok folder =>
      match c.searchDocumentsRes folder.internalID with
      | .error e =>
        (.error (.remoteErr "search" e), [.callSearchDocuments folder.internalID])
      | .ok documents =>
        match mergeCollect c t rest with
        | (.error e, evs) =>
          (.error e, [Event.callSearchDocuments folder.internalID] ++ evs)
        | (.ok (delIDs, folderIDs, documentIDs), evs) =>
          (.ok (folder.internalID :: delIDs,
                (folder.folders.map DFolder.internalID) ++ folderIDs,
                (documents.map RDocument.internalID) ++ documentIDs),
           [Event.callSearchDocuments folder.internalID] ++ evs)

/-- `Fs.MergeDirs`: no-op for fewer than two directories; otherwise move all
documents and child folders of the tail directories into the head one, then
delete the tail folders.  The cached tree is never patched. -/
def mergeDirs (c : Client) (tree? : Option DFolder) (dirs : List DirEntryArg) :
    OpResult Unit :=
  match buildTree c tree? with
  | ⟨.error e, evs, t?⟩ => ⟨.error (.wrap "build tree" e), evs, t?⟩
  | ⟨.ok _, evs0, t?⟩ =>
    match t? with
    | none => ⟨.error .dirNotFound, evs0, none⟩
    | some t =>
    match dirs with
    | [] => ⟨.ok (), evs0, some t⟩
    | [_] => ⟨.ok (), evs0, some t⟩
    | dest :: rest =>
      match mergeCollect c t rest with
      | (.error e, evs) => ⟨.error e, evs0 ++ evs, some t⟩
      | (.ok (folderIDsToDelete, folderIDs, documentIDs), evs) =>
        let moveEv := Event.callMove dest.id documentIDs folderIDs
        match c.moveRes dest.id documentIDs folderIDs with
        | some e => ⟨.error (.remoteErr "move" e), evs0 ++ evs ++ [moveEv], some t⟩
        | none =>
          let delEv := Event.callDelete [] folderIDsToDelete
          match c.deleteRes [] folderIDsToDelete with
          | some e =>
            ⟨.error (.remoteErr "delete" e), evs0 ++ evs ++ [moveEv, delEv], some t⟩
          | none => ⟨.ok (), evs0 ++ evs ++ [moveEv, delEv], some t⟩

/-! ## `Fs.PutStream` (and `Fs.Put`, which delegates to it) -/

/-- An `fs.OpenOption` as the backend inspects it. -/
structure OpenOption where
  mandatory : Bool
deriving DecidableEq, Repr

/-- The index of the first mandatory option, if any. -/
def firstMandatory (i : Nat) : List OpenOption → Option Nat
  | [] => none
  | o :: os => if o.mandatory then some i else firstMandatory (i + 1) os

/-- `Fs.PutStream`: reject mandatory options; resolve the parent; log (and
ignore) same-named sibling folders; search for same-named documents, failing
when more than one exists; create the document (incrementing the parent's
cached count and building the returned entry whenever the remote handed back a
document, even alongside an error); delete the replaced duplicates and deduct
them from the count; finally return the object together with
`errors.ErrUnsupported`. -/
def putStream (c : Client) (tree? : Option DFolder) (srcRemote : String)
    (options : List OpenOption) : PutResult :=
  match firstMandatory 0 options with
  | some i => ⟨none, some (.mandatoryOption i), [], tree?⟩
  | none =>
    match buildTree c tree? with
    | ⟨.error e, evs, t?⟩ => ⟨none, some (.wrap "build tree" e), evs, t?⟩
    | ⟨.ok _, evs0, t?⟩ =>
      match t? with
      | none => ⟨none, some .dirNotFound, evs0, none⟩
      | some t =>
      let parentPath := goPathDir srcRemote
      let baseName := goPathBase srcRemote
      match getFolder t parentPath with
      | .error e => ⟨none, some (.wrap "get" e), evs0, some t⟩
      | .ok parent =>
        let sameNameLogs :=
          (parent.folders.filter fun f => f.name = baseName).map
            fun _ => Event.logSameNameFolder srcRemote
        let evs1 := evs0 ++ sameNameLogs ++ [.callSearchDocuments parent.internalID]
        match c.searchDocumentsRes parent.internalID with
        | .error e => ⟨none, some (.remoteErr "search" e), evs1, some t⟩
        | .ok documents =>
          let documentIDs :=
            (documents.filter fun d => d.name = baseName).map RDocument.internalID
          if documentIDs.length > 1 then
            ⟨none, some (.tooManyDocuments documentIDs.length), evs1, some t⟩
          else
            let evs2 := evs1 ++ [.callCreateDocument parent.internalID baseName]
            let created := c.createDocumentRes parent.internalID baseName
            let (obj?, t1) :=
              match created.1 with
              | some document =>
                (some (newDocument parentPath document),
                 (patchAt (DFolder.bumpCount 1) t parentPath).getD t)
              | none => (none, t)
            match created.2 with
            | some e => ⟨none, some (.remoteErr "create document" e), evs2, some t1⟩
            | none =>
              let evs3 := evs2 ++ [.callDelete documentIDs []]
              match c.deleteRes documentIDs [] with
              | some e => ⟨obj?, some (.remoteErr "delete" e), evs3, some t1⟩
              | none =>
                let t2 :=
                  (patchAt (DFolder.bumpCount (-(Int.ofNat documentIDs.length)))
                    t1 parentPath).getD t1
                ⟨obj?, some .unsupported, evs3, some t2⟩

/-- `Fs.Put` delegates to `Fs.PutStream`. -/
def put (c : Client) (tree? : Option DFolder) (srcRemote : String)
    (options : List OpenOption) : PutResult :=
  putStream c tree? srcRemote options

/-! ## Basic lemmas -/

theorem DFolder.withFolders_self (f : DFolder) : f.withFolders f.folders = f := by
  cases f
  rfl

theorem DFolder.bumpCount_name (δ : Int) (f : DFolder) : (f.bumpCount δ).name = f.name := by
  cases f
  rfl

theorem DFolder.bumpCount_folders (δ : Int) (f : DFolder) :
    (f.bumpCount δ).folders = f.folders := by
  cases f
  rfl

theorem DFolder.bumpCount_documentCount (δ : Int) (f : DFolder) :
    (f.bumpCount δ).documentCount = f.documentCount + δ := by
  cases f
  rfl

/-- On success `buildTree` always hands back a tree (the `none` success
branches of the operations above only totalize their matches). -/
theorem buildTree_ok_some (c : Client) (tree? : Option DFolder) (u : Unit)
    (h : (buildTree c tree?).res = .ok u) : ∃ t, (buildTree c tree?).tree = some t := by
  cases tree? with
  | some t => exact ⟨t, rfl⟩
  | none =>
    simp only [buildTree] at h ⊢
    cases hf : c.listFoldersRes with
    | error e => simp [hf] at h
    | ok folders =>
      cases hd : c.listDocumentsRes with
      | error e => simp [hf, hd] at h
      | ok documents =>
        cases hp : c.getProfileRes with
        | error e => simp [hf, hd, hp] at h
        | ok profile => simp [hf, hd, hp]

/-- `buildTree` on an existing tree: no-op. -/
theorem buildTree_existing (c : Client) (t : DFolder) :
    buildTree c (some t) = ⟨.ok (), [], some t⟩ := rfl

theorem exceptMap_map {ε α β γ : Type} (o : Except ε α) (f : α → β) (g : β → γ) :
    (o.map f).map g = o.map (g ∘ f) := by
  cases o <;> rfl

theorem exceptMap_congr {ε α β : Type} (o : Except ε α) (f g : α → β)
    (h : ∀ a, f a = g a) : o.map f = o.map g := by
  cases o with
  | error e => rfl
  | ok a => simp only [Except.map, h]

/-! ## Claim C1 — the path codec round trip -/

/-- The round trip as literally claimed fails on the sentinel character: the
claimed law `decode(encode(x)) = x` is false at `x = "_"`, which decodes to
`"/"`. -/
theorem c1_roundtrip_counterexample :
    local2Remote (remote2Local "_") = "/" ∧ "/" ≠ "_" := by
  constructor
  · rfl
  · decide

/-- Claim C1 (amended): `decode(encode(x)) = x` holds for every string that
does not contain the sentinel character `'_'`; on strings containing `'_'`
the code maps that character to `'/'` (see the counterexample). -/
theorem c1_roundtrip (x : String) (h : slashReplacement ∉ x.toList) :
    local2Remote (remote2Local x) = x := by
  cases x with
  | mk l =>
    simp only [String.toList] at h
    simp only [remote2Local, local2Remote, String.toList, List.map_map]
    congr 1
    induction l with
    | nil => rfl
    | cons c cs ih =>
      simp only [List.mem_cons, not_or] at h
      simp only [List.map_cons, Function.comp_apply]
      rw [ih h.2]
      by_cases hc : c = '/'
      · subst hc
        simp [slashReplacement]
      · rw [if_neg hc, if_neg fun hh => h.1 hh.symm]

/-- Witness for C1: the amended round trip at `"a/b"`. -/
theorem c1_roundtrip_witness :
    slashReplacement ∉ ("a/b" : String).toList ∧
      local2Remote (remote2Local "a/b") = "a/b" := by
  refine ⟨by decide, c1_roundtrip "a/b" (by decide)⟩

/-! ## Claim C4 — `GetFolder` path resolution -/

theorem resolveChildren_no_match (nm : String) (ps : List String) (l : List DFolder)
    (h : ∀ c ∈ l, c.name ≠ nm) :
    resolveChildren nm l ps = .error .dirNotFound := by
  have hf : l.find? (fun c => c.name = nm) = none := by
    rw [List.find?_eq_none]
    intro c hc
    simpa using h c hc
  simp only [resolveChildren, hf]

theorem resolveChildren_first_match (nm : String) (ps : List String)
    (l₁ l₂ : List DFolder) (c : DFolder) (hc : c.name = nm)
    (h₁ : ∀ c' ∈ l₁, c'.name ≠ nm) :
    resolveChildren nm (l₁ ++ c :: l₂) ps = resolveSegs c ps := by
  have hf : (l₁ ++ c :: l₂).find? (fun x => x.name = nm) = some c := by
    induction l₁ with
    | nil =>
      rw [List.nil_append]
      exact List.find?_cons_of_pos _ (by simpa using hc)
    | cons g gs ih =>
      have hg : g.name ≠ nm := h₁ g (List.mem_cons_self g gs)
      rw [List.cons_append, List.find?_cons_of_neg _ (by simpa using hg)]
      exact ih fun c' hc' => h₁ c' (List.mem_cons_of_mem g hc')
  simp only [resolveChildren, hf]

/-- Claim C4: `GetFolder` trims leading/trailing slashes and returns the root
node for the (trimmed-)empty path; otherwise it splits on `/` and, segment by
segment, linearly scans the current folder's children comparing each child's
name (by exact, case-sensitive string equality) against the decoded/re-encoded
segment, descending on the first match, and fails with `fs.ErrorDirNotFound`
at the first segment with no matching child. -/
theorem c4_getFolder_resolution :
    (∀ (t : DFolder) (r : String), trimSlashes r = "" → getFolder t r = .ok t) ∧
    (∀ (t : DFolder) (r : String), trimSlashes r ≠ "" →
      getFolder t r = resolveSegs t (splitSlash (trimSlashes r))) ∧
    (∀ (f : DFolder), resolveSegs f [] = .ok f) ∧
    (∀ (f : DFolder) (s : String) (ps : List String),
      (∀ c ∈ f.folders, c.name ≠ decodeSeg s) →
      resolveSegs f (s :: ps) = .error .dirNotFound) ∧
    (∀ (f c : DFolder) (s : String) (ps : List String) (l₁ l₂ : List DFolder),
      f.folders = l₁ ++ c :: l₂ → c.name = decodeSeg s →
      (∀ c' ∈ l₁, c'.name ≠ decodeSeg s) →
      resolveSegs f (s :: ps) = resolveSegs c ps) := by
  refine ⟨?_, ?_, ?_, ?_, ?_⟩
  · intro t r h
    simp [getFolder, h]
  · intro t r h
    simp [getFolder, h]
  · intro f
    simp [resolveSegs]
  · intro f s ps h
    rw [resolveSegs_cons]
    exact resolveChildren_no_match _ _ _ h
  · intro f c s ps l₁ l₂ hsplit hc h₁
    rw [resolveSegs_cons, hsplit]
    exact resolveChildren_first_match _ _ _ _ _ hc h₁

/-- Witness for C4: a concrete two-level resolution, exercising the trimming,
the root case, the first-match scan and the not-found case. -/
theorem c4_getFolder_resolution_witness :
    trimSlashes "//" = "" ∧
      getFolder (DFolder.mk "r" "" 0 0 0 [DFolder.mk "a" "docs" 0 0 0 []]) "//"
        = .ok (DFolder.mk "r" "" 0 0 0 [DFolder.mk "a" "docs" 0 0 0 []]) := by
  refine ⟨by decide, c4_getFolder_resolution.1 _ "//" (by decide)⟩

/-! ## Lemmas relating `updateSegs` and `resolveSegs` -/

@[simp] theorem DFolder.folders_mk (i n : String) (ca ua c : Int) (fs : List DFolder) :
    (DFolder.mk i n ca ua c fs).folders = fs := rfl

@[simp] theorem DFolder.name_mk (i n : String) (ca ua c : Int) (fs : List DFolder) :
    (DFolder.mk i n ca ua c fs).name = n := rfl

@[simp] theorem DFolder.documentCount_mk (i n : String) (ca ua c : Int) (fs : List DFolder) :
    (DFolder.mk i n ca ua c fs).documentCount = c := rfl

@[simp] theorem DFolder.internalID_mk (i n : String) (ca ua c : Int) (fs : List DFolder) :
    (DFolder.mk i n ca ua c fs).internalID = i := rfl

/-! Properties of `find?`, `replaceFirst`, `updateSegs` and `resolveSegs`. -/

theorem DFolder.withFolders_folders (f : DFolder) (l : List DFolder) :
    (f.withFolders l).folders = l := by
  cases f
  rfl

theorem DFolder.withFolders_documentCount (f : DFolder) (l : List DFolder) :
    (f.withFolders l).documentCount = f.documentCount := by
  cases f
  rfl

/-- The scanning loop of `GetFolder` expressed through `List.find?`. -/
theorem resolveChildren_eq_find (nm : String) (ps : List String) :
    ∀ (l : List DFolder), resolveChildren nm l ps
      = match l.find? (fun c => c.name = nm) with
        | some c => resolveSegs c ps
        | none => .error .dirNotFound :=
  fun _ => rfl

theorem find?_name_eq (l : List DFolder) (nm : String) (c : DFolder)
    (h : l.find? (fun c => c.name = nm) = some c) : c.name = nm := by
  have := List.find?_some h
  simpa using this

theorem find?_replaceFirst_same (nm : String) (child child' : DFolder)
    (hname : child'.name = child.name) :
    ∀ (l : List DFolder), l.find? (fun c => c.name = nm) = some child →
      (replaceFirst nm child' l).find? (fun c => c.name = nm) = some child' := by
  intro l
  induction l with
  | nil => intro h; simp at h
  | cons g gs ih =>
    intro h
    by_cases hg : g.name = nm
    · rw [List.find?_cons_of_pos _ (by simpa using hg)] at h
      cases h
      rw [replaceFirst, if_pos hg]
      exact List.find?_cons_of_pos _ (by simpa using hname.trans hg)
    · rw [List.find?_cons_of_neg _ (by simpa using hg)] at h
      rw [replaceFirst, if_neg hg, List.find?_cons_of_neg _ (by simpa using hg)]
      exact ih h

theorem find?_replaceFirst_other (nm b : String) (child' : DFolder)
    (hname : child'.name = nm) (hne : ¬ b = nm) :
    ∀ (l : List DFolder),
      (replaceFirst nm child' l).find? (fun c => c.name = b)
        = l.find? (fun c => c.name = b) := by
  intro l
  induction l with
  | nil => simp [replaceFirst]
  | cons g gs ih =>
    by_cases hg : g.name = nm
    · rw [replaceFirst, if_pos hg]
      rw [List.find?_cons_of_neg _ (by simp [hname]; exact fun hh => hne hh.symm),
        List.find?_cons_of_neg _ (by simp; intro hh; rw [hh] at hg; exact hne hg)]
    · rw [replaceFirst, if_neg hg]
      by_cases hgb : g.name = b
      · rw [List.find?_cons_of_pos _ (by simpa using hgb),
          List.find?_cons_of_pos _ (by simpa using hgb)]
      · rw [List.find?_cons_of_neg _ (by simpa using hgb),
          List.find?_cons_of_neg _ (by simpa using hgb)]
        exact ih

theorem replaceFirst_self (nm : String) :
    ∀ (l : List DFolder) (child : DFolder),
      l.find? (fun c => c.name = nm) = some child →
      replaceFirst nm child l = l := by
  intro l
  induction l with
  | nil => intro child h; simp at h
  | cons g gs ih =>
    intro child h
    by_cases hg : g.name = nm
    · rw [List.find?_cons_of_pos _ (by simpa using hg)] at h
      cases h
      rw [replaceFirst, if_pos hg]
    · rw [List.find?_cons_of_neg _ (by simpa using hg)] at h
      rw [replaceFirst, if_neg hg, ih child h]

theorem DFolder.withFolders_name (f : DFolder) (l : List DFolder) :
    (f.withFolders l).name = f.name := by
  cases f
  rfl

/-- A cache update applied through a name-preserving node update preserves the
name of the updated node. -/
theorem updateSegs_name (upd : DFolder → DFolder) (hName : ∀ f, (upd f).name = f.name)
    (f : DFolder) (ps : List String) (f' : DFolder)
    (h : updateSegs upd f ps = some f') : f'.name = f.name := by
  cases ps with
  | nil =>
    simp only [updateSegs, Option.some.injEq] at h
    rw [← h]
    exact hName f
  | cons p ps =>
    simp only [updateSegs] at h
    cases hfind : f.folders.find? (fun c => c.name = decodeSeg p) with
    | none => simp only [hfind] at h; cases h
    | some child =>
      simp only [hfind] at h
      cases hup : updateSegs upd child ps with
      | none => simp only [hup] at h; cases h
      | some child' =>
        simp only [hup] at h
        cases h
        exact DFolder.withFolders_name f _

/-- If a path resolves, the corresponding cache patch applies (the Go code
mutates through the pointer `GetFolder` returned, so this can never fail when
resolution succeeded). -/
theorem resolve_imp_update (upd : DFolder → DFolder) :
    ∀ (ps : List String) (f r : DFolder),
      resolveSegs f ps = .ok r → ∃ f', updateSegs upd f ps = some f' := by
  intro ps
  induction ps with
  | nil => intro f r _; exact ⟨upd f, by simp [updateSegs]⟩
  | cons p ps ih =>
    intro f r h
    rw [resolveSegs_cons, resolveChildren_eq_find] at h
    simp only [updateSegs]
    cases hfind : f.folders.find? (fun c => c.name = decodeSeg p) with
    | none => simp only [hfind] at h; cases h
    | some child =>
      simp only [hfind] at h
      obtain ⟨child', hc'⟩ := ih child r h
      simp only [hfind, hc']
      exact ⟨_, rfl⟩

/-- The master correspondence: a successful cache patch at a path implies the
path resolved before the patch, resolves to the updated node after the patch,
and the patch is the identity whenever the node update is. -/
theorem updateSegs_spec (upd : DFolder → DFolder)
    (hName : ∀ f, (upd f).name = f.name) :
    ∀ (ps : List String) (f f' : DFolder),
      updateSegs upd f ps = some f' →
      ∃ r, resolveSegs f ps = .ok r ∧ resolveSegs f' ps = .ok (upd r) ∧
        (upd r = r → f' = f) := by
  intro ps
  induction ps with
  | nil =>
    intro f f' h
    simp only [updateSegs, Option.some.injEq] at h
    refine ⟨f, by simp [resolveSegs], ?_, ?_⟩
    · rw [← h]; simp [resolveSegs]
    · intro hid; rw [← h, hid]
  | cons p ps ih =>
    intro f f' h
    simp only [updateSegs] at h
    cases hfind : f.folders.find? (fun c => c.name = decodeSeg p) with
    | none => simp only [hfind] at h; cases h
    | some child =>
      simp only [hfind] at h
      cases hup : updateSegs upd child ps with
      | none => simp only [hup] at h; cases h
      | some child' =>
        simp only [hup] at h
        cases h
        obtain ⟨r, hr1, hr2, hr3⟩ := ih child child' hup
        have hchildname : child'.name = child.name :=
          updateSegs_name upd hName child ps child' hup
        refine ⟨r, ?_, ?_, ?_⟩
        · rw [resolveSegs_cons, resolveChildren_eq_find, hfind]
          exact hr1
        · rw [resolveSegs_cons, resolveChildren_eq_find, DFolder.withFolders_folders,
            find?_replaceFirst_same (decodeSeg p) child child' hchildname f.folders hfind]
          exact hr2
        · intro hid
          rw [hr3 hid, replaceFirst_self (decodeSeg p) f.folders child hfind]
          exact DFolder.withFolders_self f

/-- Patching the cached count at one path shifts the count `resolveSegs`
observes at exactly the paths with the same decoded segment list, and at no
other path. -/
theorem updateSegs_count (δ : Int) :
    ∀ (ps qs : List String) (t t' : DFolder),
      updateSegs (DFolder.bumpCount δ) t ps = some t' →
      (resolveSegs t' qs).map DFolder.documentCount
        = (resolveSegs t qs).map (fun n => n.documentCount +
            if qs.map decodeSeg = ps.map decodeSeg then δ else 0) := by
  intro ps
  induction ps with
  | nil =>
    intro qs t t' h
    simp only [updateSegs, Option.some.injEq] at h
    cases qs with
    | nil =>
      rw [← h]
      simp [resolveSegs, Except.map, DFolder.bumpCount_documentCount]
    | cons q qs =>
      rw [← h]
      cases t with
      | mk i n ca ua cnt fs =>
        have hcond : ¬ ((q :: qs).map decodeSeg = ([] : List String).map decodeSeg) := by
          simp
        have hfun : (fun (n : DFolder) => n.documentCount +
            if (q :: qs).map decodeSeg = ([] : List String).map decodeSeg then δ else 0)
            = DFolder.documentCount := by
          funext a
          rw [if_neg hcond, add_zero]
        rw [hfun]
        simp only [resolveSegs, DFolder.bumpCount, DFolder.folders_mk]
  | cons p ps ih =>
    intro qs t t' h
    simp only [updateSegs] at h
    cases hfind : t.folders.find? (fun c => c.name = decodeSeg p) with
    | none => simp only [hfind] at h; cases h
    | some child =>
      simp only [hfind] at h
      cases hup : updateSegs (DFolder.bumpCount δ) child ps with
      | none => simp only [hup] at h; cases h
      | some child' =>
        simp only [hup] at h
        cases h
        have hchildname : child'.name = child.name :=
          updateSegs_name _ (DFolder.bumpCount_name δ) child ps child' hup
        have hcnm : child.name = decodeSeg p := find?_name_eq _ _ _ hfind
        cases qs with
        | nil =>
          have hcond : ¬ (List.map decodeSeg [] = List.map decodeSeg (p :: ps)) := by
            simp
          simp [resolveSegs, Except.map, DFolder.withFolders_documentCount, hcond]
        | cons q qs =>
          rw [resolveSegs_cons, resolveSegs_cons, resolveChildren_eq_find, resolveChildren_eq_find,
            DFolder.withFolders_folders]
          by_cases hqp : decodeSeg q = decodeSeg p
          · rw [hqp,
              find?_replaceFirst_same (decodeSeg p) child child' hchildname t.folders hfind,
              hfind]
            refine (ih qs child child' hup).trans (exceptMap_congr _ _ _ fun a => ?_)
            congr 1
            refine if_congr ?_ rfl rfl
            simp [List.map_cons, List.cons.injEq, hqp]
          · rw [find?_replaceFirst_other (decodeSeg p) (decodeSeg q) child'
              (hchildname.trans hcnm) hqp t.folders]
            have hcond : ¬ ((q :: qs).map decodeSeg = (p :: ps).map decodeSeg) := by
              simp only [List.map_cons, List.cons.injEq, not_and]
              intro h1 _
              exact absurd h1 hqp
            cases hfq : t.folders.find? (fun c => c.name = decodeSeg q) with
            | none => rfl
            | some g =>
              refine (exceptMap_congr _ _ _ fun a => ?_).symm
              rw [if_neg hcond, add_zero]

theorem getFolder_eq_resolve (t : DFolder) (r : String) :
    getFolder t r = resolveSegs t (pathSegs r) := by
  rw [getFolder, pathSegs]
  by_cases h : trimSlashes r = "" <;> simp [h, resolveSegs]

theorem patchAt_eq (upd : DFolder → DFolder) (t : DFolder) (path : String) :
    patchAt upd t path = updateSegs upd t (pathSegs path) := rfl

theorem getFolder_imp_patch (upd : DFolder → DFolder) (t : DFolder) (path : String)
    (r : DFolder) (h : getFolder t path = .ok r) :
    ∃ t', patchAt upd t path = some t' := by
  rw [getFolder_eq_resolve] at h
  exact resolve_imp_update upd (pathSegs path) t r h

theorem patchAt_spec (upd : DFolder → DFolder) (hName : ∀ f, (upd f).name = f.name)
    (t : DFolder) (path : String) (t' : DFolder) (h : patchAt upd t path = some t') :
    ∃ r, getFolder t path = .ok r ∧ getFolder t' path = .ok (upd r) ∧
      (upd r = r → t' = t) := by
  rw [getFolder_eq_resolve, getFolder_eq_resolve]
  exact updateSegs_spec upd hName (pathSegs path) t t' h

theorem patchAt_count (δ : Int) (t : DFolder) (path : String) (t' : DFolder)
    (h : patchAt (DFolder.bumpCount δ) t path = some t') (q : String) :
    (getFolder t' q).map DFolder.documentCount
      = (getFolder t q).map (fun n => n.documentCount +
          if decodeSegs q = decodeSegs path then δ else 0) := by
  rw [getFolder_eq_resolve, getFolder_eq_resolve]
  exact updateSegs_count δ (pathSegs path) (pathSegs q) t t' h

/-! ## Claim C9 — `buildTree` -/

/-- Claim C9: `buildTree` is a no-op when the tree exists; otherwise it
performs the three remote reads (top-level folders, top-level documents,
profile) and assembles the root exactly when all three succeed; on any failure
it returns an error and leaves the cache unset (so the next call finds
`tree = none` and retries all three reads). -/
theorem c9_buildTree :
    (∀ (c : Client) (t : DFolder), buildTree c (some t) = ⟨.ok (), [], some t⟩) ∧
    (∀ (c : Client) (folders : List DFolder) (documents : List RDocument)
        (profile : Profile),
      c.listFoldersRes = .ok folders → c.listDocumentsRes = .ok documents →
      c.getProfileRes = .ok profile →
      buildTree c none =
        ⟨.ok (), [.callListFolders, .callListDocuments, .callGetProfile],
         some (.mk "" "" profile.subscriptionDate profile.subscriptionDate
           (Int.ofNat documents.length) folders)⟩) ∧
    (∀ (c : Client),
      ((∃ e, c.listFoldersRes = .error e) ∨ (∃ e, c.listDocumentsRes = .error e) ∨
        (∃ e, c.getProfileRes = .error e)) →
      (∃ e, (buildTree c none).res = .error e) ∧ (buildTree c none).tree = none) := by
  refine ⟨fun c t => rfl, ?_, ?_⟩
  · intro c folders documents profile hf hd hp
    simp [buildTree, hf, hd, hp]
  · intro c h
    cases hf : c.listFoldersRes with
    | error e =>
      exact ⟨⟨.remoteErr "list folders" e, by simp [buildTree, hf]⟩,
        by simp [buildTree, hf]⟩
    | ok folders =>
      cases hd : c.listDocumentsRes with
      | error e =>
        exact ⟨⟨.remoteErr "list documents" e, by simp [buildTree, hf, hd]⟩,
          by simp [buildTree, hf, hd]⟩
      | ok documents =>
        cases hp : c.getProfileRes with
        | error e =>
          exact ⟨⟨.remoteErr "get profile" e, by simp [buildTree, hf, hd, hp]⟩,
            by simp [buildTree, hf, hd, hp]⟩
        | ok profile =>
          rcases h with ⟨e, he⟩ | ⟨e, he⟩ | ⟨e, he⟩
          · rw [hf] at he; cases he
          · rw [hd] at he; cases he
          · rw [hp] at he; cases he

/-- A fully successful client used by several witnesses. -/
def clientOk : Client where
  listFoldersRes := .ok []
  listDocumentsRes := .ok []
  getProfileRes := .ok ⟨100⟩
  searchDocumentsRes := fun _ => .ok []
  createFolderRes := fun _ nm => .ok (DFolder.mk "newFolder" nm 0 0 0 [])
  renameFolderRes := fun _ nm => .ok (DFolder.mk "renamedFolder" nm 0 0 0 [])
  createDocumentRes := fun _ nm => (some ⟨"newDoc", nm, 3⟩, none)
  renameDocumentRes := fun id nm => .ok ⟨id, nm, 7⟩
  moveRes := fun _ _ _ => none
  copyDocumentsRes := fun ids => .ok (ids.map fun i => ⟨strCat i "Copy", "x.txt", 5⟩)
  deleteRes := fun _ _ => none

/-- Witness for C9: the successful build at a concrete client. -/
theorem c9_buildTree_witness :
    buildTree clientOk none =
      ⟨.ok (), [.callListFolders, .callListDocuments, .callGetProfile],
       some (.mk "" "" 100 100 0 [])⟩ :=
  c9_buildTree.2.1 clientOk [] [] ⟨100⟩ rfl rfl rfl

/-! ## Loop lemmas for `Rmdir` and `Purge` -/

theorem rmdirLoop_true_found (c : Client) (dir base : String) :
    ∀ (l fs' : List DFolder) (b' : Bool) (evs : List Event),
      rmdirLoop c dir base true l = (.ok (fs', b'), evs) → b' = true := by
  intro l
  induction l with
  | nil =>
    intro fs' b' evs h
    simp only [rmdirLoop, Prod.mk.injEq, Except.ok.injEq] at h
    exact h.1.2.symm
  | cons folder rest ih =>
    intro fs' b' evs h
    rw [rmdirLoop] at h
    by_cases hname : folder.name ≠ base
    · rw [if_pos hname] at h
      cases hrec : rmdirLoop c dir base true rest with
      | mk r evs₂ =>
        cases r with
        | ok pr =>
          cases pr with
          | mk fs'' b'' =>
            rw [hrec] at h
            simp only [Prod.mk.injEq, Except.ok.injEq] at h
            exact h.1.2 ▸ ih fs'' b'' evs₂ hrec
        | error e => rw [hrec] at h; simp at h
    · rw [if_neg hname] at h
      by_cases hcnt : documentsTotalCount folder > 0
      · rw [if_pos hcnt] at h; simp at h
      · rw [if_neg hcnt] at h
        cases hdel : c.deleteRes [] [folder.internalID] with
        | some e => rw [hdel] at h; simp at h
        | none =>
          rw [hdel] at h
          cases hrec : rmdirLoop c dir base true rest with
          | mk r evs₂ =>
            cases r with
            | ok pr =>
              cases pr with
              | mk fs'' b'' =>
                rw [hrec] at h
                simp only [Prod.mk.injEq, Except.ok.injEq] at h
                exact h.1.2 ▸ ih fs'' b'' evs₂ hrec
            | error e => rw [hrec] at h; simp at h

theorem rmdirLoop_false_nomatch (c : Client) (dir base : String) :
    ∀ (l fs' : List DFolder) (evs : List Event),
      rmdirLoop c dir base false l = (.ok (fs', false), evs) → fs' = l := by
  intro l
  induction l with
  | nil =>
    intro fs' evs h
    simp only [rmdirLoop, Prod.mk.injEq, Except.ok.injEq] at h
    exact h.1.1.symm
  | cons folder rest ih =>
    intro fs' evs h
    rw [rmdirLoop] at h
    by_cases hname : folder.name ≠ base
    · rw [if_pos hname] at h
      cases hrec : rmdirLoop c dir base false rest with
      | mk r evs₂ =>
        cases r with
        | ok pr =>
          cases pr with
          | mk fs'' b'' =>
            rw [hrec] at h
            simp only [Prod.mk.injEq, Except.ok.injEq] at h
            obtain ⟨⟨hfs, hb⟩, hevs⟩ := h
            subst hb
            rw [← hfs, ih fs'' evs₂ hrec]
        | error e => rw [hrec] at h; simp at h
    · rw [if_neg hname] at h
      by_cases hcnt : documentsTotalCount folder > 0
      · rw [if_pos hcnt] at h; simp at h
      · rw [if_neg hcnt] at h
        cases hdel : c.deleteRes [] [folder.internalID] with
        | some e => rw [hdel] at h; simp at h
        | none =>
          rw [hdel] at h
          cases hrec : rmdirLoop c dir base true rest with
          | mk r evs₂ =>
            cases r with
            | ok pr =>
              cases pr with
              | mk fs'' b'' =>
                rw [hrec] at h
                simp only [Prod.mk.injEq, Except.ok.injEq] at h
                have := rmdirLoop_true_found c dir base rest fs'' b'' evs₂ hrec
                rw [this] at h
                exact absurd h.1.2 (by simp)
            | error e => rw [hrec] at h; simp at h

theorem purgeLoop_true_found (c : Client) (dir base : String) :
    ∀ (l fs' : List DFolder) (b' : Bool) (evs : List Event),
      purgeLoop c dir base true l = (.ok (fs', b'), evs) → b' = true := by
  intro l
  induction l with
  | nil =>
    intro fs' b' evs h
    simp only [purgeLoop, Prod.mk.injEq, Except.ok.injEq] at h
    exact h.1.2.symm
  | cons folder rest ih =>
    intro fs' b' evs h
    rw [purgeLoop] at h
    by_cases hname : folder.name ≠ base
    · rw [if_pos hname] at h
      cases hrec : purgeLoop c dir base true rest with
      | mk r evs₂ =>
        cases r with
        | ok pr =>
          cases pr with
          | mk fs'' b'' =>
            rw [hrec] at h
            simp only [Prod.mk.injEq, Except.ok.injEq] at h
            exact h.1.2 ▸ ih fs'' b'' evs₂ hrec
        | error e => rw [hrec] at h; simp at h
    · rw [if_neg hname] at h
      cases hdel : c.deleteRes [] [folder.internalID] with
      | some e => rw [hdel] at h; simp at h
      | none =>
        rw [hdel] at h
        cases hrec : purgeLoop c dir base true rest with
        | mk r evs₂ =>
          cases r with
          | ok pr =>
            cases pr with
            | mk fs'' b'' =>
              rw [hrec] at h
              simp only [Prod.mk.injEq, Except.ok.injEq] at h
              exact h.1.2 ▸ ih fs'' b'' evs₂ hrec
          | error e => rw [hrec] at h; simp at h

theorem purgeLoop_false_nomatch (c : Client) (dir base : String) :
    ∀ (l fs' : List DFolder) (evs : List Event),
      purgeLoop c dir base false l = (.ok (fs', false), evs) → fs' = l := by
  intro l
  induction l with
  | nil =>
    intro fs' evs h
    simp only [purgeLoop, Prod.mk.injEq, Except.ok.injEq] at h
    exact h.1.1.symm
  | cons folder rest ih =>
    intro fs' evs h
    rw [purgeLoop] at h
    by_cases hname : folder.name ≠ base
    · rw [if_pos hname] at h
      cases hrec : purgeLoop c dir base false rest with
      | mk r evs₂ =>
        cases r with
        | ok pr =>
          cases pr with
          | mk fs'' b'' =>
            rw [hrec] at h
            simp only [Prod.mk.injEq, Except.ok.injEq] at h
            obtain ⟨⟨hfs, hb⟩, hevs⟩ := h
            subst hb
            rw [← hfs, ih fs'' evs₂ hrec]
        | error e => rw [hrec] at h; simp at h
    · rw [if_neg hname] at h
      cases hdel : c.deleteRes [] [folder.internalID] with
      | some e => rw [hdel] at h; simp at h
      | none =>
        rw [hdel] at h
        cases hrec : purgeLoop c dir base true rest with
        | mk r evs₂ =>
          cases r with
          | ok pr =>
            cases pr with
            | mk fs'' b'' =>
              rw [hrec] at h
              simp only [Prod.mk.injEq, Except.ok.injEq] at h
              have := purgeLoop_true_found c dir base rest fs'' b'' evs₂ hrec
              rw [this] at h
              exact absurd h.1.2 (by simp)
          | error e => rw [hrec] at h; simp at h

/-! ## Failure atomicity of the individual verbs (towards claim C3) -/

theorem mkdir_error_tree (c : Client) (t : DFolder) (dir : String) (e : Err)
    (h : (mkdir c (some t) dir).res = .error e) :
    (mkdir c (some t) dir).tree = some t := by
  unfold mkdir at h ⊢
  simp only [buildTree] at h ⊢
  cases hgf : getFolder t (goPathDir dir) with
  | error e' => simp [hgf]
  | ok parent =>
    simp only [hgf] at h ⊢
    cases hcf : c.createFolderRes parent.internalID (goPathBase dir) with
    | error e' => simp [hcf]
    | ok folder => simp [hcf] at h

theorem mergeDirs_tree (c : Client) (t : DFolder) (dirs : List DirEntryArg) :
    (mergeDirs c (some t) dirs).tree = some t := by
  unfold mergeDirs
  simp only [buildTree]
  cases dirs with
  | nil => rfl
  | cons dest rest =>
    cases rest with
    | nil => rfl
    | cons d2 rest2 =>
      cases hcol : mergeCollect c t (d2 :: rest2) with
      | mk r evs =>
        cases r with
        | error e => simp [hcol]
        | ok triple =>
          obtain ⟨delIDs, folderIDs, documentIDs⟩ := triple
          cases hmv : c.moveRes dest.id documentIDs folderIDs with
          | some e => simp [hcol, hmv]
          | none =>
            cases hdel : c.deleteRes [] delIDs with
            | some e => simp [hcol, hmv, hdel]
            | none => simp [hcol, hmv, hdel]

theorem rmdir_error_tree (c : Client) (t : DFolder) (dir : String) (e : Err)
    (h : (rmdir c (some t) dir).res = .error e) :
    (rmdir c (some t) dir).tree = some t := by
  unfold rmdir at h ⊢
  simp only [buildTree] at h ⊢
  cases hgf : getFolder t (goPathDir dir) with
  | error e' => simp [hgf]
  | ok parent =>
    simp only [hgf] at h ⊢
    cases hloop : rmdirLoop c dir (goPathBase dir) false parent.folders with
    | mk r evs =>
      cases r with
      | error e' => simp [hloop]
      | ok pr =>
        obtain ⟨folders', found⟩ := pr
        simp only [hloop] at h ⊢
        cases found with
        | true => simp at h
        | false =>
          simp only [Bool.false_eq_true, not_false_eq_true, if_pos]
          have hfs : folders' = parent.folders :=
            rmdirLoop_false_nomatch c dir (goPathBase dir) parent.folders folders' evs hloop
          obtain ⟨t'', hp⟩ :=
            getFolder_imp_patch (fun f => f.withFolders folders') t (goPathDir dir)
              parent hgf
          obtain ⟨r, hr1, hr2, hr3⟩ :=
            patchAt_spec _ (fun f => DFolder.withFolders_name f folders') t
              (goPathDir dir) t'' hp
          rw [hgf] at hr1
          have hrparent : r = parent := by
            cases hr1
            rfl
          have hid : r.withFolders folders' = r := by
            rw [hrparent, hfs]
            exact DFolder.withFolders_self parent
          rw [hp]
          simp [hr3 hid]

theorem purge_error_tree (c : Client) (t : DFolder) (dir : String) (e : Err)
    (h : (purge c (some t) dir).res = .error e) :
    (purge c (some t) dir).tree = some t := by
  unfold purge at h ⊢
  simp only [buildTree] at h ⊢
  cases hgf : getFolder t (goPathDir dir) with
  | error e' => simp [hgf]
  | ok parent =>
    simp only [hgf] at h ⊢
    cases hloop : purgeLoop c dir (goPathBase dir) false parent.folders with
    | mk r evs =>
      cases r with
      | error e' => simp [hloop]
      | ok pr =>
        obtain ⟨folders', found⟩ := pr
        simp only [hloop] at h ⊢
        cases found with
        | true => simp at h
        | false =>
          simp only [Bool.false_eq_true, not_false_eq_true, if_pos]
          have hfs : folders' = parent.folders :=
            purgeLoop_false_nomatch c dir (goPathBase dir) parent.folders folders' evs hloop
          obtain ⟨t'', hp⟩ :=
            getFolder_imp_patch (fun f => f.withFolders folders') t (goPathDir dir)
              parent hgf
          obtain ⟨r, hr1, hr2, hr3⟩ :=
            patchAt_spec _ (fun f => DFolder.withFolders_name f folders') t
              (goPathDir dir) t'' hp
          rw [hgf] at hr1
          have hrparent : r = parent := by
            cases hr1
            rfl
          have hid : r.withFolders folders' = r := by
            rw [hrparent, hfs]
            exact DFolder.withFolders_self parent
          rw [hp]
          simp [hr3 hid]

theorem move_error_tree (c : Client) (t : DFolder) (src : SrcObject) (dst : String)
    (e : Err) (h : (move c (some t) src dst).res = .error e)
    (hnoren : ∀ id nm,
      Event.callRenameDocument id nm ∉ (move c (some t) src dst).events) :
    (move c (some t) src dst).tree = some t := by
  unfold move at h hnoren ⊢
  simp only [buildTree] at h hnoren ⊢
  cases hgf : getFolder t (goPathDir dst) with
  | error e' => simp [hgf]
  | ok dstParentFolder =>
    simp only [hgf] at h hnoren ⊢
    cases hdir : src.isDir with
    | true => simp [hdir]
    | false =>
      cases hid : src.id? with
      | none => simp [hdir, hid]
      | some documentID =>
        by_cases hpar : goPathDir src.remote = goPathDir dst
        · by_cases hbase : goPathBase src.remote = goPathBase dst
          · simp [hdir, hid, hpar, hbase] at h
          · cases hren : c.renameDocumentRes documentID (goPathBase dst) with
            | error e' =>
              exfalso
              apply hnoren documentID (goPathBase dst)
              simp [hdir, hid, hpar, hbase, hren]
            | ok doc => simp [hdir, hid, hpar, hbase, hren] at h
        · cases hmv : c.moveRes dstParentFolder.internalID [documentID] [] with
          | some e' => simp [hdir, hid, hpar, hmv]
          | none =>
            by_cases hbase : goPathBase src.remote = goPathBase dst
            · simp [hdir, hid, hpar, hmv, hbase] at h
            · cases hren : c.renameDocumentRes documentID (goPathBase dst) with
              | ok doc => simp [hdir, hid, hpar, hmv, hbase, hren] at h
              | error e' =>
                exfalso
                apply hnoren documentID (goPathBase dst)
                simp [hdir, hid, hpar, hmv, hbase, hren]

theorem dirMove_error_tree (c : Client) (t : DFolder) (src : DirEntryArg)
    (srcIsDir : Bool) (srcRemote dstRemote : String) (e : Err)
    (h : (dirMove c (some t) src srcIsDir srcRemote dstRemote).res = .error e)
    (hnoren : ∀ id nm, Event.callRenameFolder id nm ∉
      (dirMove c (some t) src srcIsDir srcRemote dstRemote).events) :
    (dirMove c (some t) src srcIsDir srcRemote dstRemote).tree = some t := by
  unfold dirMove at h hnoren ⊢
  simp only [buildTree] at h hnoren ⊢
  cases hgf : getFolder t (goPathDir dstRemote) with
  | error e' => simp [hgf]
  | ok dstParentFolder =>
    simp only [hgf] at h hnoren ⊢
    cases hdir : srcIsDir with
    | false => simp [hdir]
    | true =>
      by_cases hpar : goPathDir srcRemote = goPathDir dstRemote
      · by_cases hbase : goPathBase srcRemote = goPathBase dstRemote
        · simp [hdir, hpar, hbase] at h
        · cases hren : c.renameFolderRes src.id (goPathBase dstRemote) with
          | error e' =>
            exfalso
            apply hnoren src.id (goPathBase dstRemote)
            simp [hdir, hpar, hbase, hren]
          | ok doc => simp [hdir, hpar, hbase, hren] at h
      · cases hmv : c.moveRes dstParentFolder.internalID [] [src.id] with
        | some e' => simp [hdir, hpar, hmv]
        | none =>
          by_cases hbase : goPathBase srcRemote = goPathBase dstRemote
          · simp [hdir, hpar, hmv, hbase] at h
          · cases hren : c.renameFolderRes src.id (goPathBase dstRemote) with
            | ok doc => simp [hdir, hpar, hmv, hbase, hren] at h
            | error e' =>
              exfalso
              apply hnoren src.id (goPathBase dstRemote)
              simp [hdir, hpar, hmv, hbase, hren]

theorem copy_error_tree (c : Client) (t : DFolder) (src : SrcObject) (remote : String)
    (e : Err) (h : (copy c (some t) src remote).res = .error e)
    (hnomove : ∀ d ds fs,
      Event.callMove d ds fs ∉ (copy c (some t) src remote).events)
    (hnoren : ∀ id nm,
      Event.callRenameDocument id nm ∉ (copy c (some t) src remote).events) :
    (copy c (some t) src remote).tree = some t := by
  unfold copy at h hnomove hnoren ⊢
  simp only [buildTree] at h hnomove hnoren ⊢
  cases hgf : getFolder t (goPathDir remote) with
  | error e' => simp [hgf]
  | ok remoteParentFolder =>
    simp only [hgf] at h hnomove hnoren ⊢
    cases hdir : src.isDir with
    | true => simp [hdir]
    | false =>
      cases hid : src.id? with
      | none => simp [hdir, hid]
      | some srcID =>
        cases hcp : c.copyDocumentsRes [srcID] with
        | error e' => simp [hdir, hid, hcp]
        | ok docs =>
          match docs with
          | [] => simp [hdir, hid, hcp]
          | d0 :: d1 :: ds => simp [hdir, hid, hcp]
          | [document0] =>
            by_cases hpar : goPathDir src.remote = goPathDir remote
            · by_cases hbase : goPathBase src.remote = goPathBase remote
              · simp [hdir, hid, hcp, hpar, hbase] at h
              · cases hren :
                  c.renameDocumentRes document0.internalID (goPathBase remote) with
                | ok doc => simp [hdir, hid, hcp, hpar, hbase, hren] at h
                | error e' =>
                  exfalso
                  apply hnoren document0.internalID (goPathBase remote)
                  simp [hdir, hid, hcp, hpar, hbase, hren]
            · cases hmv :
                c.moveRes remoteParentFolder.internalID [document0.internalID] [] with
              | some e' =>
                exfalso
                apply hnomove remoteParentFolder.internalID [document0.internalID] []
                simp [hdir, hid, hcp, hpar, hmv]
              | none =>
                exfalso
                apply hnomove remoteParentFolder.internalID [document0.internalID] []
                by_cases hbase : goPathBase src.remote = goPathBase remote
                · simp [hdir, hid, hcp, hpar, hmv, hbase]
                · cases hren :
                    c.renameDocumentRes document0.internalID (goPathBase remote) with
                  | ok doc => simp [hdir, hid, hcp, hpar, hmv, hbase, hren]
                  | error e' => simp [hdir, hid, hcp, hpar, hmv, hbase, hren]

/-! ## Concrete fixtures for witnesses and counterexamples -/

instance {ε α : Type} [DecidableEq ε] [DecidableEq α] : DecidableEq (Except ε α)
  | .error e, .error e' =>
    if h : e = e' then .isTrue (by rw [h])
    else .isFalse fun hh => by cases hh; exact h rfl
  | .ok x, .ok y =>
    if h : x = y then .isTrue (by rw [h])
    else .isFalse fun hh => by cases hh; exact h rfl
  | .error _, .ok _ => .isFalse fun hh => by cases hh
  | .ok _, .error _ => .isFalse fun hh => by cases hh

/-- A small cached tree: the root holds folders `a` (cached count 1) and `b`
(cached count 0). -/
def t0 : DFolder :=
  .mk "root" "" 0 0 0 [.mk "ida" "a" 0 0 1 [], .mk "idb" "b" 0 0 0 []]

/-- A client whose `Move` call fails. -/
def cMoveFail : Client := { clientOk with moveRes := fun _ _ _ => some "boom" }

/-- A client whose `CreateFolder` call fails. -/
def cCreateFolderFail : Client :=
  { clientOk with createFolderRes := fun _ _ => .error "boom" }

/-- A document source object living at `a/x.txt`. -/
def srcXa : SrcObject := ⟨"a/x.txt", false, some "doc1"⟩

/-! ## Claim C3 — failure atomicity of the mutation verbs -/

/-- The claim as stated is false: when `Copy`'s move call fails after a
successful remote copy, the code re-increments the source parent's cached
document count before returning the error — folder `a` goes from count 1 to
count 2 even though `Copy` reports an error. -/
theorem c3_failure_atomicity_counterexample :
    (copy cMoveFail (some t0) srcXa "b/x.txt").res
        = .error (.remoteErr "move documents" "boom") ∧
    ((copy cMoveFail (some t0) srcXa "b/x.txt").tree.map
        fun tr => (getFolder tr "a").map DFolder.documentCount) = some (.ok 2) ∧
    (getFolder t0 "a").map DFolder.documentCount = .ok 1 :=
  ⟨by decide, by decide, by decide⟩

/-- Claim C3 (amended): with the tree already built, `Mkdir`, `Rmdir`, `Purge`
and `MergeDirs` leave the cached tree exactly as it was whenever they return
an error (`MergeDirs` never patches it at all); `Move` and `DirMove` leave it
unchanged whenever they fail without having issued a rename call (i.e. the
parent-move call or an earlier step failed); and `Copy` leaves it unchanged
whenever it fails without having issued its move or rename calls.  When a
later call fails (a rename after a successful move, or `Copy`'s move after a
successful copy) the error is returned with the cache already patched for the
calls that succeeded — see the counterexample. -/
theorem c3_failure_atomicity :
    (∀ (c : Client) (t : DFolder) (dir : String) (e : Err),
      (mkdir c (some t) dir).res = .error e → (mkdir c (some t) dir).tree = some t) ∧
    (∀ (c : Client) (t : DFolder) (dir : String) (e : Err),
      (rmdir c (some t) dir).res = .error e → (rmdir c (some t) dir).tree = some t) ∧
    (∀ (c : Client) (t : DFolder) (dir : String) (e : Err),
      (purge c (some t) dir).res = .error e → (purge c (some t) dir).tree = some t) ∧
    (∀ (c : Client) (t : DFolder) (dirs : List DirEntryArg),
      (mergeDirs c (some t) dirs).tree = some t) ∧
    (∀ (c : Client) (t : DFolder) (src : SrcObject) (dst : String) (e : Err),
      (move c (some t) src dst).res = .error e →
      (∀ id nm, Event.callRenameDocument id nm ∉ (move c (some t) src dst).events) →
      (move c (some t) src dst).tree = some t) ∧
    (∀ (c : Client) (t : DFolder) (src : DirEntryArg) (b : Bool) (sr dr : String)
        (e : Err),
      (dirMove c (some t) src b sr dr).res = .error e →
      (∀ id nm,
        Event.callRenameFolder id nm ∉ (dirMove c (some t) src b sr dr).events) →
      (dirMove c (some t) src b sr dr).tree = some t) ∧
    (∀ (c : Client) (t : DFolder) (src : SrcObject) (remote : String) (e : Err),
      (copy c (some t) src remote).res = .error e →
      (∀ d ds fs, Event.callMove d ds fs ∉ (copy c (some t) src remote).events) →
      (∀ id nm, Event.callRenameDocument id nm ∉ (copy c (some t) src remote).events) →
      (copy c (some t) src remote).tree = some t) :=
  ⟨mkdir_error_tree, rmdir_error_tree, purge_error_tree, mergeDirs_tree,
   move_error_tree, dirMove_error_tree, copy_error_tree⟩

/-- Witness for C3: a failing `CreateFolder` leaves the cached tree intact. -/
theorem c3_failure_atomicity_witness :
    (mkdir cCreateFolderFail (some t0) "a/new").res
        = .error (.remoteErr "create folder" "boom") ∧
    (mkdir cCreateFolderFail (some t0) "a/new").tree = some t0 :=
  ⟨by decide,
   c3_failure_atomicity.1 cCreateFolderFail t0 "a/new"
     (.remoteErr "create folder" "boom") (by decide)⟩

/-! ## Claim C5 — `Move` count conservation -/

theorem exceptMap_ok {ε α β : Type} (o : Except ε α) (f : α → β) (v : β)
    (h : o.map f = .ok v) : ∃ b, o = .ok b ∧ f b = v := by
  cases o with
  | error e => simp [Except.map] at h
  | ok b => exact ⟨b, rfl, by simpa [Except.map] using h⟩

/-- Claim C5: a successful document `Move` between two distinct resolvable
parent folders decrements the source parent's cached document count by exactly
one, increments the destination parent's by exactly one, and changes no other
folder's count: at every path `q`, the count seen after the move is the count
seen before plus the two indicator corrections for the source and destination
parent paths (compared through their decoded segment lists, which is what
resolution depends on). -/
theorem c5_move_count_conservation
    (c : Client) (t : DFolder) (src : SrcObject) (dst : String)
    (documentID : String) (A B : DFolder)
    (hNotDir : src.isDir = false)
    (hID : src.id? = some documentID)
    (hA : getFolder t (goPathDir src.remote) = .ok A)
    (hB : getFolder t (goPathDir dst) = .ok B)
    (hDistinct : decodeSegs (goPathDir src.remote) ≠ decodeSegs (goPathDir dst))
    (hMoveOk : c.moveRes B.internalID [documentID] [] = none)
    (hRename : goPathBase src.remote = goPathBase dst ∨
      ∃ d, c.renameDocumentRes documentID (goPathBase dst) = .ok d) :
    (∃ v, (move c (some t) src dst).res = .ok v) ∧
    ∃ t', (move c (some t) src dst).tree = some t' ∧
      ∀ q, (getFolder t' q).map DFolder.documentCount
        = (getFolder t q).map (fun n => n.documentCount
            + (if decodeSegs q = decodeSegs (goPathDir src.remote) then -1 else 0)
            + (if decodeSegs q = decodeSegs (goPathDir dst) then 1 else 0)) := by
  have hParNe : goPathDir src.remote ≠ goPathDir dst :=
    fun hh => hDistinct (congrArg decodeSegs hh)
  obtain ⟨t1, hp1⟩ :=
    getFolder_imp_patch (DFolder.bumpCount (-1)) t (goPathDir src.remote) A hA
  have hcnt1 := patchAt_count (-1) t (goPathDir src.remote) t1 hp1 (goPathDir dst)
  rw [hB] at hcnt1
  obtain ⟨B1, hB1, _⟩ := exceptMap_ok _ _ _ hcnt1
  obtain ⟨t2, hp2⟩ := getFolder_imp_patch (DFolder.bumpCount 1) t1 (goPathDir dst) B1 hB1
  have hcount : ∀ q, (getFolder t2 q).map DFolder.documentCount
      = (getFolder t q).map (fun n => n.documentCount
          + (if decodeSegs q = decodeSegs (goPathDir src.remote) then -1 else 0)
          + (if decodeSegs q = decodeSegs (goPathDir dst) then 1 else 0)) := by
    intro q
    have h2 := patchAt_count 1 t1 (goPathDir dst) t2 hp2 q
    have h1 := patchAt_count (-1) t (goPathDir src.remote) t1 hp1 q
    calc (getFolder t2 q).map DFolder.documentCount
        = (getFolder t1 q).map (fun n => n.documentCount
            + if decodeSegs q = decodeSegs (goPathDir dst) then 1 else 0) := h2
      _ = ((getFolder t1 q).map DFolder.documentCount).map
            (fun v => v + if decodeSegs q = decodeSegs (goPathDir dst) then 1 else 0) := by
          rw [exceptMap_map]
          rfl
      _ = ((getFolder t q).map (fun n => n.documentCount
            + if decodeSegs q = decodeSegs (goPathDir src.remote) then -1 else 0)).map
            (fun v => v + if decodeSegs q = decodeSegs (goPathDir dst) then 1 else 0) := by
          rw [h1]
      _ = (getFolder t q).map (fun n => n.documentCount
            + (if decodeSegs q = decodeSegs (goPathDir src.remote) then -1 else 0)
            + (if decodeSegs q = decodeSegs (goPathDir dst) then 1 else 0)) := by
          rw [exceptMap_map]
          rfl
  by_cases hbase : goPathBase src.remote = goPathBase dst
  · refine ⟨⟨none, ?_⟩, t2, ?_, hcount⟩
    · simp [move, buildTree, hB, hNotDir, hID, hParNe, hMoveOk, hp1, hp2, hbase]
    · simp [move, buildTree, hB, hNotDir, hID, hParNe, hMoveOk, hp1, hp2, hbase]
  · obtain ⟨d, hd⟩ := hRename.resolve_left hbase
    refine ⟨⟨some (newDocument (goPathDir dst) d), ?_⟩, t2, ?_, hcount⟩
    · simp [move, buildTree, hB, hNotDir, hID, hParNe, hMoveOk, hp1, hp2, hbase, hd]
    · simp [move, buildTree, hB, hNotDir, hID, hParNe, hMoveOk, hp1, hp2, hbase, hd]

/-- Witness for C5: moving `a/x.txt` to `b/x.txt` over the two-folder tree. -/
theorem c5_move_count_conservation_witness :
    (∃ v, (move clientOk (some t0) srcXa "b/x.txt").res = .ok v) ∧
    ∃ t', (move clientOk (some t0) srcXa "b/x.txt").tree = some t' ∧
      ∀ q, (getFolder t' q).map DFolder.documentCount
        = (getFolder t0 q).map (fun n => n.documentCount
            + (if decodeSegs q = decodeSegs (goPathDir srcXa.remote) then -1 else 0)
            + (if decodeSegs q = decodeSegs (goPathDir "b/x.txt") then 1 else 0)) :=
  c5_move_count_conservation clientOk t0 srcXa "b/x.txt" "doc1"
    (.mk "ida" "a" 0 0 1 []) (.mk "idb" "b" 0 0 0 [])
    (by decide) (by decide) (by rfl) (by rfl) (by decide) (by rfl)
    (Or.inl (by decide))

/-! ## Claim C6 — basename-only changes rename without moving -/

theorem remote2Local_id (s : String) (h : '/' ∉ s.toList) : remote2Local s = s := by
  cases s with
  | mk l =>
    simp only [String.toList] at h
    simp only [remote2Local, String.toList]
    congr 1
    induction l with
    | nil => rfl
    | cons c cs ih =>
      simp only [List.mem_cons, not_or] at h
      simp only [List.map_cons]
      rw [if_neg fun hh => h.1 hh.symm, ih h.2]

/-- `path.Base` never contains a slash unless it is `"/"` itself. -/
theorem goPathBase_no_slash (p : String) (h : goPathBase p ≠ "/") :
    '/' ∉ (goPathBase p).toList := by
  by_cases hp : p = ""
  · rw [goPathBase, if_pos hp]
    decide
  · by_cases hcs : (p.toList.reverse.dropWhile fun c => c = '/') = []
    · exfalso
      apply h
      rw [goPathBase, if_neg hp]
      simp only [hcs]
      exact if_pos trivial
    · rw [goPathBase, if_neg hp]
      simp only [if_neg hcs]
      intro hmem
      simp only [String.toList] at hmem
      rw [List.mem_reverse] at hmem
      have := List.mem_takeWhile_imp hmem
      simp at this

theorem c6_rename_without_move :
    (∀ (c : Client) (t : DFolder) (src : SrcObject) (dst : String)
        (documentID : String) (B : DFolder) (d : RDocument),
      src.isDir = false → src.id? = some documentID →
      getFolder t (goPathDir dst) = .ok B →
      goPathDir src.remote = goPathDir dst →
      goPathBase src.remote ≠ goPathBase dst →
      c.renameDocumentRes documentID (goPathBase dst) = .ok d →
      d.name = goPathBase dst →
      goPathBase dst ≠ "/" →
      goPathJoin (goPathDir dst) (goPathBase dst) = dst →
      move c (some t) src dst =
        ⟨.ok (some ⟨d, dst⟩),
         [.callRenameDocument documentID (goPathBase dst)], some t⟩) ∧
    (∀ (c : Client) (t : DFolder) (src : SrcObject) (remote : String)
        (srcID : String) (B : DFolder) (d0 d : RDocument) (t' : DFolder),
      src.isDir = false → src.id? = some srcID →
      getFolder t (goPathDir remote) = .ok B →
      c.copyDocumentsRes [srcID] = .ok [d0] →
      goPathDir src.remote = goPathDir remote →
      goPathBase src.remote ≠ goPathBase remote →
      c.renameDocumentRes d0.internalID (goPathBase remote) = .ok d →
      d.name = goPathBase remote →
      goPathBase remote ≠ "/" →
      goPathJoin (goPathDir remote) (goPathBase remote) = remote →
      patchAt (DFolder.bumpCount 1) t (goPathDir remote) = some t' →
      copy c (some t) src remote =
        ⟨.ok (some ⟨d, remote⟩),
         [.callCopyDocuments [srcID],
          .callRenameDocument d0.internalID (goPathBase remote)], some t'⟩) ∧
    (∀ (c : Client) (t : DFolder) (src : DirEntryArg) (srcRemote dstRemote : String)
        (B F : DFolder),
      getFolder t (goPathDir dstRemote) = .ok B →
      goPathDir srcRemote = goPathDir dstRemote →
      goPathBase srcRemote ≠ goPathBase dstRemote →
      c.renameFolderRes src.id (goPathBase dstRemote) = .ok F →
      dirMove c (some t) src true srcRemote dstRemote =
        ⟨.ok (), [.callRenameFolder src.id (goPathBase dstRemote)], some t⟩) := by
  refine ⟨?_, ?_, ?_⟩
  · intro c t src dst documentID B d hdir hid hB hpar hbase hren hname hslash hclean
    have hnd : newDocument (goPathDir dst) d = ⟨d, dst⟩ := by
      rw [newDocument, hname, remote2Local_id _ (goPathBase_no_slash dst hslash), hclean]
    simp [move, buildTree, hB, hdir, hid, hpar, hbase, hren, hnd]
  · intro c t src remote srcID B d0 d t' hdir hid hB hcp hpar hbase hren hname hslash
      hclean hpatch
    have hnd : newDocument (goPathDir remote) d = ⟨d, remote⟩ := by
      rw [newDocument, hname, remote2Local_id _ (goPathBase_no_slash remote hslash), hclean]
    simp [copy, buildTree, hB, hdir, hid, hcp, hpar, hbase, hren, hnd, hpatch]
  · intro c t src srcRemote dstRemote B F hB hpar hbase hren
    simp [dirMove, buildTree, hB, hpar, hbase, hren]

/-- Witness for C6: `Move(src="a/x.txt", dst="a/y.txt")` issues exactly one
rename call and no move call, and hands back the entry at `a/y.txt`. -/
theorem c6_rename_without_move_witness :
    move clientOk (some t0) srcXa "a/y.txt" =
      ⟨.ok (some ⟨⟨"doc1", "y.txt", 7⟩, "a/y.txt"⟩),
       [.callRenameDocument "doc1" "y.txt"], some t0⟩ := by
  have h := c6_rename_without_move.1 clientOk t0 srcXa "a/y.txt" "doc1"
    (.mk "ida" "a" 0 0 1 []) ⟨"doc1", "y.txt", 7⟩
    (by decide) (by decide) (by rfl) (by rfl) (by decide) (by rfl) (by decide)
    (by decide) (by rfl)
  rw [h]
  have hb : goPathBase "a/y.txt" = "y.txt" := by decide
  rw [hb]

/-! ## Claim C10 — same basename yields `(nil, nil)` -/

/-- Claim C10: whenever source and destination basenames agree, `Move` and
`Copy` return a nil object together with a nil error (modelled as `.ok none`),
even though the remote mutation succeeded; and a non-nil object comes back
only when the basenames differ (a rename was needed). -/
theorem c10_nil_object_same_basename :
    (∀ (c : Client) (t : DFolder) (src : SrcObject) (dst : String)
        (documentID : String) (B : DFolder),
      src.isDir = false → src.id? = some documentID →
      getFolder t (goPathDir dst) = .ok B →
      goPathBase src.remote = goPathBase dst →
      (goPathDir src.remote ≠ goPathDir dst →
        c.moveRes B.internalID [documentID] [] = none) →
      (move c (some t) src dst).res = .ok none) ∧
    (∀ (c : Client) (t : DFolder) (src : SrcObject) (remote : String)
        (srcID : String) (B : DFolder) (d0 : RDocument),
      src.isDir = false → src.id? = some srcID →
      getFolder t (goPathDir remote) = .ok B →
      c.copyDocumentsRes [srcID] = .ok [d0] →
      goPathBase src.remote = goPathBase remote →
      (goPathDir src.remote ≠ goPathDir remote →
        c.moveRes B.internalID [d0.internalID] [] = none) →
      (copy c (some t) src remote).res = .ok none) ∧
    (∀ (c : Client) (t : DFolder) (src : SrcObject) (dst : String) (o : DocObject),
      (move c (some t) src dst).res = .ok (some o) →
      goPathBase src.remote ≠ goPathBase dst) ∧
    (∀ (c : Client) (t : DFolder) (src : SrcObject) (remote : String) (o : DocObject),
      (copy c (some t) src remote).res = .ok (some o) →
      goPathBase src.remote ≠ goPathBase remote) := by
  refine ⟨?_, ?_, ?_, ?_⟩
  · intro c t src dst documentID B hdir hid hB hbase hmove
    by_cases hpar : goPathDir src.remote = goPathDir dst
    · simp [move, buildTree, hB, hdir, hid, hpar, hbase]
    · have hmv := hmove hpar
      cases hp1 : patchAt (DFolder.bumpCount (-1)) t (goPathDir src.remote) with
      | none =>
        cases hp2 : patchAt (DFolder.bumpCount 1) t (goPathDir dst) with
        | none => simp [move, buildTree, hB, hdir, hid, hpar, hmv, hbase, hp1, hp2]
        | some t2 => simp [move, buildTree, hB, hdir, hid, hpar, hmv, hbase, hp1, hp2]
      | some t1 =>
        cases hp2 : patchAt (DFolder.bumpCount 1) t1 (goPathDir dst) with
        | none => simp [move, buildTree, hB, hdir, hid, hpar, hmv, hbase, hp1, hp2]
        | some t2 => simp [move, buildTree, hB, hdir, hid, hpar, hmv, hbase, hp1, hp2]
  · intro c t src remote srcID B d0 hdir hid hB hcp hbase hmove
    by_cases hpar : goPathDir src.remote = goPathDir remote
    · simp [copy, buildTree, hB, hdir, hid, hcp, hpar, hbase]
    · have hmv := hmove hpar
      simp [copy, buildTree, hB, hdir, hid, hcp, hpar, hmv, hbase]
  · intro c t src dst o h
    intro hbase
    cases hgf : getFolder t (goPathDir dst) with
    | error e => simp [move, buildTree, hgf] at h
    | ok B =>
      cases hdir : src.isDir with
      | true => simp [move, buildTree, hgf, hdir] at h
      | false =>
        cases hid : src.id? with
        | none => simp [move, buildTree, hgf, hdir, hid] at h
        | some documentID =>
          by_cases hpar : goPathDir src.remote = goPathDir dst
          · simp [move, buildTree, hgf, hdir, hid, hpar, hbase] at h
          · cases hmv : c.moveRes B.internalID [documentID] [] with
            | some e => simp [move, buildTree, hgf, hdir, hid, hpar, hmv] at h
            | none =>
              cases hp1 : patchAt (DFolder.bumpCount (-1)) t (goPathDir src.remote) with
              | none =>
                cases hp2 : patchAt (DFolder.bumpCount 1) t (goPathDir dst) with
                | none =>
                  simp [move, buildTree, hgf, hdir, hid, hpar, hmv, hbase, hp1, hp2] at h
                | some t2 =>
                  simp [move, buildTree, hgf, hdir, hid, hpar, hmv, hbase, hp1, hp2] at h
              | some t1 =>
                cases hp2 : patchAt (DFolder.bumpCount 1) t1 (goPathDir dst) with
                | none =>
                  simp [move, buildTree, hgf, hdir, hid, hpar, hmv, hbase, hp1, hp2] at h
                | some t2 =>
                  simp [move, buildTree, hgf, hdir, hid, hpar, hmv, hbase, hp1, hp2] at h
  · intro c t src remote o h
    intro hbase
    cases hgf : getFolder t (goPathDir remote) with
    | error e => simp [copy, buildTree, hgf] at h
    | ok B =>
      cases hdir : src.isDir with
      | true => simp [copy, buildTree, hgf, hdir] at h
      | false =>
        cases hid : src.id? with
        | none => simp [copy, buildTree, hgf, hdir, hid] at h
        | some srcID =>
          cases hcp : c.copyDocumentsRes [srcID] with
          | error e => simp [copy, buildTree, hgf, hdir, hid, hcp] at h
          | ok docs =>
            cases docs with
            | nil => simp [copy, buildTree, hgf, hdir, hid, hcp] at h
            | cons d0 rest =>
            cases rest with
            | cons d1 ds => simp [copy, buildTree, hgf, hdir, hid, hcp] at h
            | nil =>
              by_cases hpar : goPathDir src.remote = goPathDir remote
              · simp [copy, buildTree, hgf, hdir, hid, hcp, hpar, hbase] at h
              · cases hmv : c.moveRes B.internalID [d0.internalID] [] with
                | some e =>
                  cases hp1 : patchAt (DFolder.bumpCount 1) t (goPathDir src.remote) with
                  | none =>
                    simp [copy, buildTree, hgf, hdir, hid, hcp, hpar, hmv, hp1] at h
                  | some t1 =>
                    simp [copy, buildTree, hgf, hdir, hid, hcp, hpar, hmv, hp1] at h
                | none =>
                  simp [copy, buildTree, hgf, hdir, hid, hcp, hpar, hmv, hbase] at h

/-- Witness for C10: the cross-parent move of `a/x.txt` to `b/x.txt` succeeds
and returns `(nil, nil)`. -/
theorem c10_nil_object_same_basename_witness :
    (move clientOk (some t0) srcXa "b/x.txt").res = .ok none :=
  c10_nil_object_same_basename.1 clientOk t0 srcXa "b/x.txt" "doc1"
    (.mk "idb" "b" 0 0 0 []) (by decide) (by decide) (by rfl) (by decide)
    (fun _ => rfl)

/-! ## Claim C7 — the `Rmdir` emptiness gate -/

/-- When some same-named child of the scanned list has a strictly positive
recursive count and deletes succeed, the `Rmdir` loop returns the not-empty
error, and any delete call it has issued was for a same-named child whose
recursive count is not positive. -/
theorem rmdirLoop_notEmpty (c : Client) (dir base : String)
    (hdel : ∀ g : String, c.deleteRes [] [g] = none) :
    ∀ (l : List DFolder) (b : Bool),
      (∃ g ∈ l, g.name = base ∧ documentsTotalCount g > 0) →
      ∃ evs, rmdirLoop c dir base b l = (.error (.notEmpty dir), evs) ∧
        ∀ ds fs, Event.callDelete ds fs ∈ evs →
          ∃ g ∈ l, g.name = base ∧ ¬ documentsTotalCount g > 0 ∧
            ds = [] ∧ fs = [g.internalID] := by
  intro l
  induction l with
  | nil =>
    intro b hex
    obtain ⟨g, hg, _⟩ := hex
    exact absurd hg (List.not_mem_nil g)
  | cons folder rest ih =>
    intro b hex
    by_cases hname : folder.name ≠ base
    · obtain ⟨g, hg, hgname, hgcnt⟩ := hex
      have hgrest : g ∈ rest := by
        rcases List.mem_cons.mp hg with h | h
        · subst h; exact absurd hgname hname
        · exact h
      obtain ⟨evs, hrec, hchar⟩ := ih b ⟨g, hgrest, hgname, hgcnt⟩
      refine ⟨evs, ?_, ?_⟩
      · rw [rmdirLoop, if_pos hname, hrec]
      · intro ds fs hmem
        obtain ⟨g', hg', hrest⟩ := hchar ds fs hmem
        exact ⟨g', List.mem_cons_of_mem _ hg', hrest⟩
    · push_neg at hname
      by_cases hcnt : documentsTotalCount folder > 0
      · cases b with
        | false =>
          refine ⟨[], ?_, fun ds fs hmem => absurd hmem (List.not_mem_nil _)⟩
          simp [rmdirLoop, hname, hcnt]
        | true =>
          refine ⟨[Event.logDuplicateWarning dir], ?_, ?_⟩
          · simp [rmdirLoop, hname, hcnt]
          · intro ds fs hmem
            simp at hmem
      · obtain ⟨g, hg, hgname, hgcnt⟩ := hex
        have hgrest : g ∈ rest := by
          rcases List.mem_cons.mp hg with h | h
          · subst h; exact absurd hgcnt hcnt
          · exact h
        obtain ⟨evs, hrec, hchar⟩ := ih true ⟨g, hgrest, hgname, hgcnt⟩
        refine ⟨(if b then [Event.logDuplicateWarning dir] else []) ++
            [Event.callDelete [] [folder.internalID]] ++ evs, ?_, ?_⟩
        · simp [rmdirLoop, hname, hcnt, hdel, hrec]
        · intro ds fs hmem
          rcases List.mem_append.mp hmem with h1 | h2
          · rcases List.mem_append.mp h1 with hw | hd
            · cases b with
              | true => simp at hw
              | false => simp at hw
            · have heq := List.mem_singleton.mp hd
              injection heq with hds hfs
              exact ⟨folder, List.mem_cons_self folder rest, hname, hcnt, hds, hfs⟩
          · obtain ⟨g', hg', hrest⟩ := hchar ds fs h2
            exact ⟨g', List.mem_cons_of_mem _ hg', hrest⟩

/-- A cached tree whose folder `p/neg` carries a negative cached count, as a
cache-sync drift can produce. -/
def tNeg : DFolder :=
  .mk "root" "" 0 0 0 [.mk "idp" "p" 0 0 0 [.mk "idneg" "neg" 0 0 (-1) []]]

/-- The claim as stated is false: the gate in the code is
`documentsTotalCount(folder) > 0`, not "nonzero". A matched folder whose
recursive count is negative (here `-1`) is treated as empty: `Rmdir` succeeds,
issues the delete for it, and removes it from the parent's cached children. -/
theorem c7_rmdir_not_empty_counterexample :
    documentsTotalCount (DFolder.mk "idneg" "neg" 0 0 (-1) []) ≠ 0 ∧
    (rmdir clientOk (some tNeg) "p/neg").res = .ok () ∧
    (rmdir clientOk (some tNeg) "p/neg").events = [.callDelete [] ["idneg"]] ∧
    ((rmdir clientOk (some tNeg) "p/neg").tree.map
        fun tr => (getFolder tr "p").map fun n => n.folders.length) =
      some (.ok 0) :=
  ⟨by decide, by decide, by decide, by decide⟩

/-- Claim C7 (amended): with the tree built and the parent resolving, if some
same-named child has a *strictly positive* recursive document count (and
deletes succeed), `Rmdir` fails with the not-empty error, leaves the cached
tree exactly as it was, and never issues a delete for a folder with positive
recursive count — every delete it did issue targeted a same-named child whose
recursive count was not positive. -/
theorem c7_rmdir_not_empty (c : Client) (t : DFolder) (dir : String)
    (parent : DFolder)
    (hgf : getFolder t (goPathDir dir) = .ok parent)
    (hex : ∃ g ∈ parent.folders, g.name = goPathBase dir ∧
      documentsTotalCount g > 0)
    (hdel : ∀ g : String, c.deleteRes [] [g] = none) :
    (rmdir c (some t) dir).res = .error (.notEmpty dir) ∧
    (rmdir c (some t) dir).tree = some t ∧
    ∀ ds fs, Event.callDelete ds fs ∈ (rmdir c (some t) dir).events →
      ∃ g ∈ parent.folders, g.name = goPathBase dir ∧
        ¬ documentsTotalCount g > 0 ∧ ds = [] ∧ fs = [g.internalID] := by
  obtain ⟨evs, hloop, hchar⟩ :=
    rmdirLoop_notEmpty c dir (goPathBase dir) hdel parent.folders false hex
  unfold rmdir
  simp only [buildTree]
  simp only [hgf, hloop]
  refine ⟨trivial, trivial, ?_⟩
  intro ds fs hmem
  refine hchar ds fs ?_
  simpa using hmem

/-- A tree whose folder `p` holds two children: a genuinely non-empty `full`
and an unrelated sibling. -/
def tFull : DFolder :=
  .mk "root" "" 0 0 0
    [.mk "idp" "p" 0 0 0 [.mk "idfull" "full" 0 0 2 [], .mk "idq" "q" 0 0 0 []]]

/-- Witness for C7 (amended): `Rmdir` of the non-empty `p/full` fails with the
not-empty error, the cache is untouched and no delete at all was issued. -/
theorem c7_rmdir_not_empty_witness :
    (rmdir clientOk (some tFull) "p/full").res = .error (.notEmpty "p/full") ∧
    (rmdir clientOk (some tFull) "p/full").tree = some tFull ∧
    ∀ ds fs, Event.callDelete ds fs ∈ (rmdir clientOk (some tFull) "p/full").events →
      ∃ g ∈ (DFolder.mk "idp" "p" 0 0 0
          [.mk "idfull" "full" 0 0 2 [], .mk "idq" "q" 0 0 0 []]).folders,
        g.name = goPathBase "p/full" ∧
        ¬ documentsTotalCount g > 0 ∧ ds = [] ∧ fs = [g.internalID] :=
  c7_rmdir_not_empty clientOk tFull "p/full"
    (DFolder.mk "idp" "p" 0 0 0
      [.mk "idfull" "full" 0 0 2 [], .mk "idq" "q" 0 0 0 []])
    (by rfl)
    ⟨DFolder.mk "idfull" "full" 0 0 2 [], List.Mem.head _, by decide, by decide⟩
    (fun _ => rfl)

/-! ## Claim C8 — duplicate-name deletion -/

/-- When every same-named child of the scanned list is empty (recursive count
not positive) and deletes succeed, the `Rmdir` loop succeeds: the rebuilt list
is the input with every same-named child removed, the found flag accumulates,
a delete call is issued for every same-named child, and when more than one
match is encountered the duplicate warning is logged. -/
theorem rmdirLoop_all_empty (c : Client) (dir base : String)
    (hdel : ∀ g : String, c.deleteRes [] [g] = none) :
    ∀ (l : List DFolder) (b : Bool),
      (∀ g ∈ l, g.name = base → documentsTotalCount g ≤ 0) →
      ∃ evs,
        rmdirLoop c dir base b l
          = (.ok (l.filter (fun g => decide (g.name ≠ base)),
                  b || l.any (fun g => decide (g.name = base))), evs)
        ∧ (∀ g ∈ l, g.name = base → Event.callDelete [] [g.internalID] ∈ evs)
        ∧ (2 ≤ (if b then 1 else 0) + l.countP (fun g => decide (g.name = base)) →
            Event.logDuplicateWarning dir ∈ evs) := by
  intro l
  induction l with
  | nil =>
    intro b hemp
    refine ⟨[], by simp [rmdirLoop], fun g hg => absurd hg (List.not_mem_nil g), ?_⟩
    intro h
    cases b <;> simp [List.countP_nil] at h
  | cons folder rest ih =>
    intro b hemp
    by_cases hname : folder.name ≠ base
    · obtain ⟨evs, hloop, hdelMem, hwarn⟩ :=
        ih b (fun g hg => hemp g (List.mem_cons_of_mem _ hg))
      refine ⟨evs, ?_, ?_, ?_⟩
      · rw [rmdirLoop, if_pos hname, hloop]
        simp [List.filter_cons, List.any_cons, hname]
      · intro g hg hgname
        rcases List.mem_cons.mp hg with h | h
        · subst h; exact absurd hgname hname
        · exact hdelMem g h hgname
      · intro h
        refine hwarn ?_
        rwa [List.countP_cons_of_neg _ _ (by simpa using hname)] at h
    · push_neg at hname
      have hcnt : ¬ documentsTotalCount folder > 0 :=
        not_lt.mpr (hemp folder (List.mem_cons_self folder rest) hname)
      obtain ⟨evs, hloop, hdelMem, hwarn⟩ :=
        ih true (fun g hg => hemp g (List.mem_cons_of_mem _ hg))
      refine ⟨(if b then [Event.logDuplicateWarning dir] else []) ++
          [Event.callDelete [] [folder.internalID]] ++ evs, ?_, ?_, ?_⟩
      · rw [rmdirLoop, if_neg (not_not_intro hname)]
        simp only [hcnt, if_false, hdel, hloop]
        simp [List.filter_cons, List.any_cons, hname]
      · intro g hg hgname
        rcases List.mem_cons.mp hg with h | h
        · subst h
          exact List.mem_append.mpr (.inl (List.mem_append.mpr (.inr (List.mem_singleton.mpr rfl))))
        · exact List.mem_append.mpr (.inr (hdelMem g h hgname))
      · intro h
        cases b with
        | true =>
          exact List.mem_append.mpr (.inl (List.mem_append.mpr (.inl (by simp))))
        | false =>
          refine List.mem_append.mpr (.inr (hwarn ?_))
          rw [List.countP_cons_of_pos _ _ (by simpa using hname)] at h
          have h0 : (if (false : Bool) then (1 : Nat) else 0) = 0 := rfl
          have h1 : (if (true : Bool) then (1 : Nat) else 0) = 1 := rfl
          rw [h0] at h
          rw [h1]
          omega

/-- Claim C8: with the tree built and the parent resolving, if all same-named
children of the parent are empty (recursive count not positive), at least two
of them share the target basename and deletes succeed, then `Rmdir` succeeds,
issues a remote delete for every one of them, logs the duplicate warning
rather than failing, and the cached parent's children list afterwards is the
old list with every same-named entry removed — no child with that name
remains. -/
theorem c8_rmdir_duplicate_siblings (c : Client) (t : DFolder) (dir : String)
    (parent : DFolder)
    (hgf : getFolder t (goPathDir dir) = .ok parent)
    (hemp : ∀ g ∈ parent.folders, g.name = goPathBase dir →
      documentsTotalCount g ≤ 0)
    (hdup : 2 ≤ parent.folders.countP (fun g => decide (g.name = goPathBase dir)))
    (hdel : ∀ g : String, c.deleteRes [] [g] = none) :
    (rmdir c (some t) dir).res = .ok () ∧
    (∀ g ∈ parent.folders, g.name = goPathBase dir →
      Event.callDelete [] [g.internalID] ∈ (rmdir c (some t) dir).events) ∧
    Event.logDuplicateWarning dir ∈ (rmdir c (some t) dir).events ∧
    ∃ t', (rmdir c (some t) dir).tree = some t' ∧
      getFolder t' (goPathDir dir)
        = .ok (parent.withFolders
            (parent.folders.filter (fun g => decide (g.name ≠ goPathBase dir)))) ∧
      ∀ g ∈ (parent.withFolders
          (parent.folders.filter (fun g => decide (g.name ≠ goPathBase dir)))).folders,
        g.name ≠ goPathBase dir := by
  obtain ⟨evs, hloop, hdelMem, hwarn⟩ :=
    rmdirLoop_all_empty c dir (goPathBase dir) hdel parent.folders false hemp
  have hpos : 0 < parent.folders.countP (fun g => decide (g.name = goPathBase dir)) := by
    omega
  obtain ⟨a, ha, hpa⟩ := List.countP_pos_iff.mp hpos
  have hany : parent.folders.any (fun g => decide (g.name = goPathBase dir)) = true :=
    List.any_eq_true.mpr ⟨a, ha, hpa⟩
  rw [Bool.false_or] at hloop
  obtain ⟨t'', hp⟩ :=
    getFolder_imp_patch
      (fun f => f.withFolders
        (parent.folders.filter (fun g => decide (g.name ≠ goPathBase dir))))
      t (goPathDir dir) parent hgf
  obtain ⟨r, hr1, hr2, hr3⟩ :=
    patchAt_spec _
      (fun f => DFolder.withFolders_name f
        (parent.folders.filter (fun g => decide (g.name ≠ goPathBase dir))))
      t (goPathDir dir) t'' hp
  rw [hgf] at hr1
  have hrparent : r = parent := by
    cases hr1
    rfl
  subst hrparent
  unfold rmdir
  simp only [buildTree]
  simp only [hgf, hloop, hany, hp]
  refine ⟨by simp, ?_, ?_, t'', by simp, ?_, ?_⟩
  · intro g hg hgname
    simpa using hdelMem g hg hgname
  · simpa using hwarn (by simpa using hdup)
  · exact hr2
  · intro g hg
    rw [DFolder.withFolders_folders] at hg
    simpa using List.of_mem_filter hg

/-- A tree whose folder `p` holds two empty sibling folders both named `dup`
plus an unrelated sibling. -/
def tDup : DFolder :=
  .mk "root" "" 0 0 0
    [.mk "idp" "p" 0 0 0
      [.mk "idd1" "dup" 0 0 0 [], .mk "idd2" "dup" 0 0 0 [],
       .mk "idq" "q" 0 0 0 []]]

/-- Witness for C8: `Rmdir "p/dup"` over two empty duplicates succeeds, deletes
both remotely, warns, and strips both from the cached children. -/
theorem c8_rmdir_duplicate_siblings_witness :
    (rmdir clientOk (some tDup) "p/dup").res = .ok () ∧
    (∀ g ∈ (DFolder.mk "idp" "p" 0 0 0
        [.mk "idd1" "dup" 0 0 0 [], .mk "idd2" "dup" 0 0 0 [],
         .mk "idq" "q" 0 0 0 []]).folders,
      g.name = goPathBase "p/dup" →
      Event.callDelete [] [g.internalID] ∈ (rmdir clientOk (some tDup) "p/dup").events) ∧
    Event.logDuplicateWarning "p/dup" ∈ (rmdir clientOk (some tDup) "p/dup").events ∧
    ∃ t', (rmdir clientOk (some tDup) "p/dup").tree = some t' ∧
      getFolder t' (goPathDir "p/dup")
        = .ok ((DFolder.mk "idp" "p" 0 0 0
            [.mk "idd1" "dup" 0 0 0 [], .mk "idd2" "dup" 0 0 0 [],
             .mk "idq" "q" 0 0 0 []]).withFolders
            ((DFolder.mk "idp" "p" 0 0 0
              [.mk "idd1" "dup" 0 0 0 [], .mk "idd2" "dup" 0 0 0 [],
               .mk "idq" "q" 0 0 0 []]).folders.filter
              (fun g => decide (g.name ≠ goPathBase "p/dup")))) ∧
      ∀ g ∈ ((DFolder.mk "idp" "p" 0 0 0
          [.mk "idd1" "dup" 0 0 0 [], .mk "idd2" "dup" 0 0 0 [],
           .mk "idq" "q" 0 0 0 []]).withFolders
          ((DFolder.mk "idp" "p" 0 0 0
            [.mk "idd1" "dup" 0 0 0 [], .mk "idd2" "dup" 0 0 0 [],
             .mk "idq" "q" 0 0 0 []]).folders.filter
            (fun g => decide (g.name ≠ goPathBase "p/dup")))).folders,
        g.name ≠ goPathBase "p/dup" :=
  c8_rmdir_duplicate_siblings clientOk tDup "p/dup"
    (DFolder.mk "idp" "p" 0 0 0
      [.mk "idd1" "dup" 0 0 0 [], .mk "idd2" "dup" 0 0 0 [],
       .mk "idq" "q" 0 0 0 []])
    (by rfl) (by decide) (by decide) (fun _ => rfl)

/-! ## Claim C2 — `Put` and the unconditional `errors.ErrUnsupported` -/

/-- The cached tree of the spec's create-and-list scenario: `docs/2024`
already created, no documents. -/
def t2dirs : DFolder :=
  .mk "root" "" 0 0 0 [.mk "iddocs" "docs" 0 0 0 [.mk "id2024" "2024" 0 0 0 []]]

/-- Claim C2 is false in the code: `PutStream` (and `Put`, which delegates to
it) never returns a nil error — every return path carries one, and the fully
successful path ends with `return obj, errors.ErrUnsupported`. On the spec's
own scenario (parent `docs/2024` resolves, no same-named document), the
created entry is built correctly — basename name, size of the upload,
destination path, parent count incremented — yet it is handed back together
with the non-nil `errors.ErrUnsupported`. -/
theorem c2_put_created_entry :
    (∀ (c : Client) (tree? : Option DFolder) (srcRemote : String)
        (options : List OpenOption),
      (put c tree? srcRemote options).err.isSome = true) ∧
    (put clientOk (some t2dirs) "docs/2024/report.pdf" []).obj
      = some ⟨⟨"newDoc", "report.pdf", 3⟩, "docs/2024/report.pdf"⟩ ∧
    (put clientOk (some t2dirs) "docs/2024/report.pdf" []).err = some .unsupported ∧
    (put clientOk (some t2dirs) "docs/2024/report.pdf" []).events
      = [.callSearchDocuments "id2024", .callCreateDocument "id2024" "report.pdf",
         .callDelete [] []] ∧
    ((put clientOk (some t2dirs) "docs/2024/report.pdf" []).tree.map
        fun tr => (getFolder tr "docs/2024").map DFolder.documentCount)
      = some (.ok 1) := by
  refine ⟨?_, by decide, by decide, by decide, by decide⟩
  intro c tree? srcRemote options
  unfold put putStream
  cases hm : firstMandatory 0 options with
  | some i => simp
  | none =>
    cases hb : buildTree c tree? with
    | mk r evs t? =>
      cases r with
      | error e => simp
      | ok u =>
        cases t? with
        | none => simp
        | some t =>
          cases hgf : getFolder t (goPathDir srcRemote) with
          | error e => simp [hgf]
          | ok parent =>
            simp only [hgf]
            cases hs : c.searchDocumentsRes parent.internalID with
            | error e => simp [hs]
            | ok documents =>
              simp only [hs]
              by_cases hlen :
                  ((documents.filter fun d => d.name = goPathBase srcRemote).map
                    RDocument.internalID).length > 1
              · have hlen' :
                    1 < (documents.filter fun d =>
                      decide (d.name = goPathBase srcRemote)).length := by
                  simpa using hlen
                simp [hlen']
              · simp only [if_neg hlen]
                cases hc1 :
                    (c.createDocumentRes parent.internalID (goPathBase srcRemote)).1 with
                | none =>
                  simp only [hc1]
                  cases hc2 :
                      (c.createDocumentRes parent.internalID (goPathBase srcRemote)).2 with
                  | some e => simp [hc2]
                  | none =>
                    simp only [hc2]
                    cases hd :
                        c.deleteRes
                          ((documents.filter fun d => d.name = goPathBase srcRemote).map
                            RDocument.internalID) [] with
                    | some e => simp [hd]
                    | none => simp [hd]
                | some document =>
                  simp only [hc1]
                  cases hc2 :
                      (c.createDocumentRes parent.internalID (goPathBase srcRemote)).2 with
                  | some e => simp [hc2]
                  | none =>
                    simp only [hc2]
                    cases hd :
                        c.deleteRes
                          ((documents.filter fun d => d.name = goPathBase srcRemote).map
                            RDocument.internalID) [] with
                    | some e => simp [hd]
                    | none => simp [hd]

end Digiposte
